import Mathlib

/-!
Verification of the work_time repository (src/module/main.py) against its
specification.  The Python module is shallowly embedded: JSON values become
an inductive type `JVal`, Python dicts become association lists operated on
by `dlookup`/`dset`/`dremove` (Python dicts preserve insertion order,
replace values in place on assignment, and append new keys at the end),
Python floats become rationals, and code paths that raise become `Except`.
-/

set_option maxHeartbeats 1000000

namespace WorkTime

/-- A JSON value, as produced by `json.load`.  Objects are association
lists in insertion order (Python dicts preserve insertion order; values
loaded from JSON have unique keys, but the type does not enforce this). -/
inductive JVal where
  | jnull
  | jbool (b : Bool)
  | jnum (q : ℚ)
  | jstr (s : String)
  | jarr (xs : List JVal)
  | jobj (kvs : List (String × JVal))

/-- A Python dict with string keys, as an association list. -/
abbrev Obj := List (String × JVal)

/-- `d.get(k)` / `d[k]`: first binding of `k` (Python dicts have at most
one binding per key). -/
def dlookup {α : Type} : List (String × α) → String → Option α
  | [], _ => none
  | (k', v) :: rest, k => if k' = k then some v else dlookup rest k

/-- `d[k] = v`: replace the value of an existing key in place, otherwise
append the new binding at the end (Python dict assignment semantics). -/
def dset {α : Type} : List (String × α) → String → α → List (String × α)
  | [], k, v => [(k, v)]
  | (k', v') :: rest, k, v =>
      if k' = k then (k, v) :: rest else (k', v') :: dset rest k v

/-- `d.pop(k, None)`: drop the binding of `k` if present. -/
def dremove {α : Type} : List (String × α) → String → List (String × α)
  | [], _ => []
  | (k', v') :: rest, k => if k' = k then rest else (k', v') :: dremove rest k

/-- `base.update(src)`: fold dict assignment over the source pairs. -/
def dictUpdate {α : Type} (base : List (String × α)) (src : List (String × α)) :
    List (String × α) :=
  src.foldl (fun acc kv => dset acc kv.1 kv.2) base

/-- The keys of a dict, in order. -/
def dkeys {α : Type} (l : List (String × α)) : List String := l.map Prod.fst

/-- Whitespace for `str.strip()` (ASCII whitespace; Python also strips
some unicode space characters, which do not occur in this development). -/
def isSpaceChar (c : Char) : Bool :=
  c = ' ' || c = '\t' || c = '\n' || c = '\r' || c = '\x0b' || c = '\x0c'

/-- `str.strip()` on a character list. -/
def stripL (l : List Char) : List Char :=
  ((l.dropWhile isSpaceChar).reverse.dropWhile isSpaceChar).reverse

/-- `s.strip()`. -/
def pyStrip (s : String) : String := String.mk (stripL s.data)

/-- Python truthiness of a JSON value (`bool(x)`). -/
def pyTruthy : JVal → Bool
  | .jnull => false
  | .jbool b => b
  | .jnum q => q ≠ 0
  | .jstr s => s ≠ ""
  | .jarr xs => !xs.isEmpty
  | .jobj kvs => !kvs.isEmpty

/-- Python iteration over a JSON value: lists yield elements, strings
yield one-character strings, dicts yield their keys; numbers, booleans and
`None` raise `TypeError` (`none`). -/
def iterElems : JVal → Option (List JVal)
  | .jarr xs => some xs
  | .jstr s => some (s.data.map (fun c => .jstr (String.mk [c])))
  | .jobj kvs => some (kvs.map (fun kv => .jstr kv.1))
  | _ => none

/-- Equality test of a JSON value against a Python string (`v == s`).
Cross-type comparisons are `False` in Python when one side is a `str`. -/
def jvalEqStr (v : JVal) (s : String) : Bool :=
  match v with
  | .jstr s' => s' = s
  | _ => false

-- ── Dict-operation lemmas ────────────────────────────────────────────────

theorem dlookup_dset_self {α : Type} (l : List (String × α)) (k : String) (v : α) :
    dlookup (dset l k v) k = some v := by
  induction l with
  | nil => simp [dset, dlookup]
  | cons hd tl ih =>
      by_cases h : hd.1 = k <;> simp [dset, dlookup, h, ih]

theorem dlookup_dset_ne {α : Type} (l : List (String × α)) (k k' : String) (v : α)
    (h : k' ≠ k) : dlookup (dset l k v) k' = dlookup l k' := by
  induction l with
  | nil => simp [dset, dlookup, Ne.symm h]
  | cons hd tl ih =>
      by_cases hk : hd.1 = k
      · subst hk
        simp [dset, dlookup, Ne.symm h]
      · by_cases hk' : hd.1 = k' <;> simp [dset, dlookup, hk, hk', h, ih]

theorem dset_eq_of_dlookup {α : Type} (l : List (String × α)) (k : String) (v : α)
    (h : dlookup l k = some v) : dset l k v = l := by
  induction l with
  | nil => simp [dlookup] at h
  | cons hd tl ih =>
      by_cases hk : hd.1 = k
      · subst hk
        simp [dlookup] at h
        simp [dset, ← h]
      · simp [dlookup, hk] at h
        simp [dset, hk, ih h]

theorem dlookup_dremove_ne {α : Type} (l : List (String × α)) (k k' : String)
    (h : k' ≠ k) : dlookup (dremove l k) k' = dlookup l k' := by
  induction l with
  | nil => simp [dremove]
  | cons hd tl ih =>
      by_cases hk : hd.1 = k
      · subst hk
        simp [dremove, dlookup, Ne.symm h]
      · by_cases hk' : hd.1 = k' <;> simp [dremove, dlookup, hk, hk', h, ih]

theorem dkeys_dset {α : Type} (l : List (String × α)) (k : String) (v : α) :
    dkeys (dset l k v) = if k ∈ dkeys l then dkeys l else dkeys l ++ [k] := by
  induction l with
  | nil => simp [dset, dkeys]
  | cons hd tl ih =>
      by_cases h : hd.1 = k
      · subst h
        simp [dset, dkeys]
      · simp [dset, dkeys, h, Ne.symm h] at ih ⊢
        rw [ih]
        by_cases hm : k ∈ List.map Prod.fst tl <;> simp [hm, Ne.symm h]

-- ── load_data normalization (main.py lines 20-80) ────────────────────────

/-- main.py line 15. -/
def DEFAULT_GROUP : String := "Ungrouped"

/-- Lines 66-69: `if k not in p or not isinstance(p.get(k), list): p[k] = []`
(used for `tags` and `time_logs`). -/
def ensureList (kvs : Obj) (k : String) : Obj :=
  match dlookup kvs k with
  | some (.jarr _) => kvs
  | _ => dset kvs k (.jarr [])

/-- Lines 70-71: `if "group" not in p or not isinstance(p.get("group"), str)
or not p.get("group").strip(): p["group"] = DEFAULT_GROUP`. -/
def ensureGroup (kvs : Obj) : Obj :=
  match dlookup kvs "group" with
  | some (.jstr s) =>
      if pyStrip s = "" then dset kvs "group" (.jstr DEFAULT_GROUP) else kvs
  | _ => dset kvs "group" (.jstr DEFAULT_GROUP)

/-- Lines 45-52: keep the trimmed, non-empty, not-yet-seen string entries of
the raw `groups` list, in order (`seen` always holds exactly the elements of
the accumulator). -/
def normGroupsAux : List JVal → List String → List String
  | [], acc => acc
  | g :: rest, acc =>
      match g with
      | .jstr s =>
          let s' := pyStrip s
          if s' ≠ "" ∧ s' ∉ acc then normGroupsAux rest (acc ++ [s'])
          else normGroupsAux rest acc
      | _ => normGroupsAux rest acc

/-- Line 63: the fresh default project shell replacing a non-dict project. -/
def shellProject : JVal :=
  .jobj [("tags", .jarr []), ("time_logs", .jarr []), ("group", .jstr DEFAULT_GROUP)]

/-- Lines 61-75: normalize one project value; the second component is the
stripped group to be added to `groups` (`none` for the non-dict shell case,
which `continue`s before the group check). -/
def normProject (p : JVal) : JVal × Option String :=
  match p with
  | .jobj kvs =>
      let kvs3 := ensureGroup (ensureList (ensureList kvs "tags") "time_logs")
      let grp := match dlookup kvs3 "group" with
        | some (.jstr s) => pyStrip s
        | _ => ""
      (.jobj (dset kvs3 "group" (.jstr grp)), some grp)
  | _ => (shellProject, none)

/-- Lines 61-78: normalize every project in order, appending each project's
group to `groups` when not yet present (lines 76-78). -/
def normProjects : List (String × JVal) → List String →
    List (String × JVal) × List String
  | [], gs => ([], gs)
  | (n, p) :: rest, gs =>
      let r := normProject p
      let gs1 := match r.2 with
        | some g => if g ∈ gs then gs else gs ++ [g]
        | none => gs
      let rr := normProjects rest gs1
      ((n, r.1) :: rr.1, rr.2)

/-- Line 27: the initial document. -/
def baseDoc : Obj := [("projects", .jobj []), ("groups", .jarr [.jstr DEFAULT_GROUP])]

/-- Lines 27-36: `data.update(loaded)` when the parsed file is a dict. -/
def step0 (loaded : JVal) : Obj :=
  match loaded with
  | .jobj kvs => dictUpdate baseDoc kvs
  | _ => baseDoc

/-- Lines 38-39. -/
def ensureProjects (data : Obj) : Obj :=
  match dlookup data "projects" with
  | some (.jobj _) => data
  | _ => dset data "projects" (.jobj [])

/-- Lines 41-42. -/
def ensureGroups (data : Obj) : Obj :=
  match dlookup data "groups" with
  | some (.jarr _) => data
  | _ => dset data "groups" (.jarr [.jstr DEFAULT_GROUP])

/-- The `data["groups"]` list read at line 47 (always a list here). -/
def rawGroups (data : Obj) : List JVal :=
  match dlookup data "groups" with
  | some (.jarr xs) => xs
  | _ => []

/-- The `data["projects"]` dict read at line 61 (always a dict here). -/
def rawProjects (data : Obj) : List (String × JVal) :=
  match dlookup data "projects" with
  | some (.jobj kvs) => kvs
  | _ => []

/-- Lines 45-58: the normalized `groups` list, with the default group
inserted at the front when absent (lines 54-56). -/
def groupsPass (data : Obj) : List String :=
  let ngs := normGroupsAux (rawGroups data) []
  if DEFAULT_GROUP ∈ ngs then ngs else DEFAULT_GROUP :: ngs

/-- Lines 45-78: normalized projects together with the final groups list. -/
def normAll (data : Obj) : List (String × JVal) × List String :=
  normProjects (rawProjects data) (groupsPass data)

/-- Lines 58-80: write the normalized `projects` and `groups` back into the
document dict and return it. -/
def loadFrom (data : Obj) : JVal :=
  .jobj (dset (dset data "projects" (.jobj (normAll data).1)) "groups"
    (.jarr ((normAll data).2.map .jstr)))

/-- `load_data` (lines 20-80) applied to the parsed JSON value `loaded`
(an unreadable or unparsable file behaves like the non-dict case). -/
def load_norm (loaded : JVal) : JVal :=
  loadFrom (ensureGroups (ensureProjects (step0 loaded)))

-- ── str.strip() lemmas ───────────────────────────────────────────────────

theorem head_dropWhile_false {p : Char → Bool} :
    ∀ (l : List Char) (x : Char), (l.dropWhile p).head? = some x → p x = false := by
  intro l
  induction l with
  | nil => intro x h; simp [List.dropWhile] at h
  | cons c t ih =>
      intro x h
      by_cases hc : p c
      · rw [List.dropWhile_cons, if_pos hc] at h
        exact ih x h
      · rw [List.dropWhile_cons, if_neg hc] at h
        simp at h
        rw [← h]
        exact Bool.not_eq_true _ |>.mp hc

theorem dropWhile_eq_self_of_head {p : Char → Bool} (l : List Char)
    (h : ∀ x, l.head? = some x → p x = false) : l.dropWhile p = l := by
  cases l with
  | nil => rfl
  | cons c t =>
      have := h c (by rfl)
      rw [List.dropWhile_cons, if_neg (by simp [this])]

theorem getLast_dropWhile_mem {p : Char → Bool} :
    ∀ (l : List Char) (x : Char), (l.dropWhile p).getLast? = some x →
      l.getLast? = some x := by
  intro l
  induction l with
  | nil => intro x h; simp [List.dropWhile] at h
  | cons c t ih =>
      intro x h
      by_cases hc : p c
      · rw [List.dropWhile_cons, if_pos hc] at h
        have ht : t ≠ [] := by
          intro he
          subst he
          simp [List.dropWhile] at h
        cases t with
        | nil => exact absurd rfl ht
        | cons y t' => rw [List.getLast?_cons_cons]; exact ih x h
      · rwa [List.dropWhile_cons, if_neg hc] at h

theorem stripL_idem (l : List Char) : stripL (stripL l) = stripL l := by
  unfold stripL
  set a := l.dropWhile isSpaceChar with ha
  set b := a.reverse.dropWhile isSpaceChar with hb
  have hB : b.reverse.dropWhile isSpaceChar = b.reverse := by
    apply dropWhile_eq_self_of_head
    intro x hx
    rw [List.head?_reverse] at hx
    have h2 : a.reverse.getLast? = some x := getLast_dropWhile_mem _ _ (hb ▸ hx)
    rw [List.getLast?_reverse] at h2
    exact head_dropWhile_false l x (ha ▸ h2)
  rw [hB, List.reverse_reverse, hb, List.dropWhile_idempotent]

theorem pyStrip_idem (s : String) : pyStrip (pyStrip s) = pyStrip s := by
  unfold pyStrip
  rw [show (String.mk (stripL s.data)).data = stripL s.data from rfl, stripL_idem]

theorem pyStrip_default : pyStrip DEFAULT_GROUP = DEFAULT_GROUP := by decide

-- ── Fixed-point lemmas for the per-project normalization ────────────────

theorem ensureList_lookup (kvs : Obj) (k : String) :
    ∃ xs, dlookup (ensureList kvs k) k = some (.jarr xs) := by
  unfold ensureList
  split
  · rename_i xs h
    exact ⟨xs, h⟩
  · exact ⟨[], dlookup_dset_self _ _ _⟩

theorem ensureList_lookup_ne (kvs : Obj) (k k' : String) (h : k' ≠ k) :
    dlookup (ensureList kvs k) k' = dlookup kvs k' := by
  unfold ensureList
  split
  · rfl
  · exact dlookup_dset_ne _ _ _ _ h

theorem ensureList_of_arr (kvs : Obj) (k : String) (xs : List JVal)
    (h : dlookup kvs k = some (.jarr xs)) : ensureList kvs k = kvs := by
  simp [ensureList, h]

theorem ensureGroup_lookup (kvs : Obj) :
    ∃ s, dlookup (ensureGroup kvs) "group" = some (.jstr s) ∧ pyStrip s ≠ "" := by
  unfold ensureGroup
  split
  · rename_i s h
    by_cases hs : pyStrip s = ""
    · rw [if_pos hs]
      exact ⟨DEFAULT_GROUP, dlookup_dset_self _ _ _, by decide⟩
    · rw [if_neg hs]
      exact ⟨s, h, hs⟩
  · exact ⟨DEFAULT_GROUP, dlookup_dset_self _ _ _, by decide⟩

theorem ensureGroup_lookup_ne (kvs : Obj) (k' : String) (h : k' ≠ "group") :
    dlookup (ensureGroup kvs) k' = dlookup kvs k' := by
  unfold ensureGroup
  split
  · split
    · exact dlookup_dset_ne _ _ _ _ h
    · rfl
  · exact dlookup_dset_ne _ _ _ _ h

theorem ensureGroup_of_good (kvs : Obj) (s : String)
    (h : dlookup kvs "group" = some (.jstr s)) (hs : pyStrip s ≠ "") :
    ensureGroup kvs = kvs := by
  simp [ensureGroup, h, hs]

theorem normProject_snd_clean (p : JVal) (g : String)
    (h : (normProject p).2 = some g) : pyStrip g = g ∧ g ≠ "" := by
  cases p with
  | jobj kvs =>
      obtain ⟨s, hl, hs⟩ := ensureGroup_lookup (ensureList (ensureList kvs "tags") "time_logs")
      simp only [normProject, hl, Option.some.injEq] at h
      rw [← h]
      exact ⟨pyStrip_idem s, hs⟩
  | jnull => simp [normProject] at h
  | jbool b => simp [normProject] at h
  | jnum q => simp [normProject] at h
  | jstr s => simp [normProject] at h
  | jarr xs => simp [normProject] at h

theorem normProject_shell : normProject shellProject = (shellProject, some DEFAULT_GROUP) := by
  rfl

theorem normProject_idem (p : JVal) :
    ∃ g, (pyStrip g = g ∧ g ≠ "") ∧
      normProject (normProject p).1 = ((normProject p).1, some g) ∧
      ((normProject p).2 = some g ∨ ((normProject p).2 = none ∧ g = DEFAULT_GROUP)) := by
  cases p with
  | jobj kvs =>
      obtain ⟨s, hl, hs⟩ := ensureGroup_lookup (ensureList (ensureList kvs "tags") "time_logs")
      set l2 := ensureList (ensureList kvs "tags") "time_logs" with hl2
      set kvs3 := ensureGroup l2 with hkvs3
      set grp := pyStrip s with hgrp
      set out := dset kvs3 "group" (.jstr grp) with hout
      have h1 : normProject (.jobj kvs) = (.jobj out, some grp) := by
        simp only [normProject, ← hl2, ← hkvs3, hl]
      have hgclean : pyStrip grp = grp := pyStrip_idem s
      -- lookups on the normalized project
      obtain ⟨xs, htags⟩ := ensureList_lookup kvs "tags"
      obtain ⟨ys, htl⟩ := ensureList_lookup (ensureList kvs "tags") "time_logs"
      have htags2 : dlookup l2 "tags" = some (.jarr xs) := by
        rw [hl2, ensureList_lookup_ne _ _ _ (by decide)]
        exact htags
      have hout_tags : dlookup out "tags" = some (.jarr xs) := by
        rw [hout, dlookup_dset_ne _ _ _ _ (by decide), hkvs3,
          ensureGroup_lookup_ne _ _ (by decide)]
        exact htags2
      have hout_tl : dlookup out "time_logs" = some (.jarr ys) := by
        rw [hout, dlookup_dset_ne _ _ _ _ (by decide), hkvs3,
          ensureGroup_lookup_ne _ _ (by decide), hl2]
        exact htl
      have hout_grp : dlookup out "group" = some (.jstr grp) := by
        rw [hout]
        exact dlookup_dset_self _ _ _
      have e1 : ensureList out "tags" = out := ensureList_of_arr _ _ _ hout_tags
      have e2 : ensureList (ensureList out "tags") "time_logs" = out := by
        rw [e1]
        exact ensureList_of_arr _ _ _ hout_tl
      have e3 : ensureGroup (ensureList (ensureList out "tags") "time_logs") = out := by
        rw [e2]
        exact ensureGroup_of_good _ _ hout_grp (by rw [hgclean]; exact hs)
      have e4 : dset out "group" (.jstr grp) = out := dset_eq_of_dlookup _ _ _ hout_grp
      refine ⟨grp, ⟨hgclean, hs⟩, ?_, ?_⟩
      · rw [h1]
        simp only [normProject, e3, hout_grp, hgclean, e4]
      · left
        rw [h1]
  | jnull => exact ⟨DEFAULT_GROUP, ⟨by decide, by decide⟩, normProject_shell, Or.inr ⟨rfl, rfl⟩⟩
  | jbool b => exact ⟨DEFAULT_GROUP, ⟨by decide, by decide⟩, normProject_shell, Or.inr ⟨rfl, rfl⟩⟩
  | jnum q => exact ⟨DEFAULT_GROUP, ⟨by decide, by decide⟩, normProject_shell, Or.inr ⟨rfl, rfl⟩⟩
  | jstr s => exact ⟨DEFAULT_GROUP, ⟨by decide, by decide⟩, normProject_shell, Or.inr ⟨rfl, rfl⟩⟩
  | jarr xs => exact ⟨DEFAULT_GROUP, ⟨by decide, by decide⟩, normProject_shell, Or.inr ⟨rfl, rfl⟩⟩

theorem normProjects_groups_subset :
    ∀ (ps : List (String × JVal)) (gs : List String) (x : String),
      x ∈ gs → x ∈ (normProjects ps gs).2 := by
  intro ps
  induction ps with
  | nil => intro gs x h; simpa [normProjects] using h
  | cons pr rest ih =>
      intro gs x h
      obtain ⟨n, p⟩ := pr
      simp only [normProjects]
      apply ih
      cases hg : (normProject p).2 with
      | none => simpa [hg] using h
      | some g =>
          simp only [hg]
          split
          · exact h
          · exact List.mem_append_left _ h

theorem normProjects_groups_clean :
    ∀ (ps : List (String × JVal)) (gs : List String), gs.Nodup →
      (∀ g ∈ gs, pyStrip g = g ∧ g ≠ "") →
      ((normProjects ps gs).2.Nodup ∧
        ∀ g ∈ (normProjects ps gs).2, pyStrip g = g ∧ g ≠ "") := by
  intro ps
  induction ps with
  | nil => intro gs h1 h2; exact ⟨h1, h2⟩
  | cons pr rest ih =>
      intro gs h1 h2
      obtain ⟨n, p⟩ := pr
      simp only [normProjects]
      cases hg : (normProject p).2 with
      | none => exact ih gs h1 h2
      | some g =>
          simp only [hg]
          split
          · exact ih gs h1 h2
          · rename_i hnotmem
            obtain ⟨hc1, hc2⟩ := normProject_snd_clean p g hg
            refine ih (gs ++ [g]) ?_ ?_
            · simp [List.nodup_append, h1, hnotmem]
            · intro x hx
              rcases List.mem_append.mp hx with hx | hx
              · exact h2 x hx
              · simp at hx
                subst hx
                exact ⟨hc1, hc2⟩

theorem normProjects_out :
    ∀ (ps : List (String × JVal)) (gs : List String), DEFAULT_GROUP ∈ gs →
      ((∀ pr ∈ (normProjects ps gs).1,
          ∃ g, normProject pr.2 = (pr.2, some g) ∧ g ∈ (normProjects ps gs).2) ∧
        DEFAULT_GROUP ∈ (normProjects ps gs).2) := by
  intro ps
  induction ps with
  | nil =>
      intro gs hd
      exact ⟨by simp [normProjects], by simpa [normProjects] using hd⟩
  | cons pr rest ih =>
      intro gs hd
      obtain ⟨n, p⟩ := pr
      obtain ⟨g, hclean, hidem, hrel⟩ := normProject_idem p
      have hgs1 : ∀ gs1, gs1 = (match (normProject p).2 with
          | some g' => if g' ∈ gs then gs else gs ++ [g']
          | none => gs) → g ∈ gs1 ∧ DEFAULT_GROUP ∈ gs1 := by
        intro gs1 hdef
        rcases hrel with hrel | ⟨hrel, hgd⟩
        · simp only [hrel] at hdef
          subst hdef
          constructor
          · by_cases hm : g ∈ gs
            · rw [if_pos hm]; exact hm
            · rw [if_neg hm]; simp
          · by_cases hm : g ∈ gs
            · rw [if_pos hm]; exact hd
            · rw [if_neg hm]; exact List.mem_append_left _ hd
        · simp only [hrel] at hdef
          subst hdef
          exact ⟨hgd ▸ hd, hd⟩
      obtain ⟨hgmem, hdmem⟩ := hgs1 _ rfl
      have ihr := ih _ hdmem
      constructor
      · intro pr2 hpr2
        simp only [normProjects, List.mem_cons] at hpr2
        rcases hpr2 with hpr2 | hpr2
        · subst hpr2
          refine ⟨g, hidem, ?_⟩
          simp only [normProjects]
          exact normProjects_groups_subset _ _ _ hgmem
        · obtain ⟨g', hg1, hg2⟩ := ihr.1 pr2 hpr2
          exact ⟨g', hg1, by simpa [normProjects] using hg2⟩
      · simp only [normProjects]
        exact ihr.2

theorem normProjects_fixed :
    ∀ (ps : List (String × JVal)) (gs : List String),
      (∀ pr ∈ ps, ∃ g, normProject pr.2 = (pr.2, some g) ∧ g ∈ gs) →
      normProjects ps gs = (ps, gs) := by
  intro ps
  induction ps with
  | nil => intro gs _; rfl
  | cons pr rest ih =>
      intro gs h
      obtain ⟨n, p⟩ := pr
      obtain ⟨g, hg, hmem⟩ := h (n, p) (List.mem_cons_self _ _)
      have hrest : ∀ pr ∈ rest, ∃ g, normProject pr.2 = (pr.2, some g) ∧ g ∈ gs :=
        fun pr hpr => h pr (List.mem_cons_of_mem _ hpr)
      simp only [normProjects, hg, if_pos hmem, ih gs hrest]

theorem normGroupsAux_clean_nodup :
    ∀ (raw : List JVal) (acc : List String), acc.Nodup →
      (∀ g ∈ acc, pyStrip g = g ∧ g ≠ "") →
      ((normGroupsAux raw acc).Nodup ∧
        ∀ g ∈ normGroupsAux raw acc, pyStrip g = g ∧ g ≠ "") := by
  intro raw
  induction raw with
  | nil => intro acc h1 h2; exact ⟨h1, h2⟩
  | cons g rest ih =>
      intro acc h1 h2
      cases g with
      | jstr s =>
          simp only [normGroupsAux]
          split
          · rename_i hcond
            refine ih _ ?_ ?_
            · simp [List.nodup_append, h1, hcond.2]
            · intro x hx
              rcases List.mem_append.mp hx with hx | hx
              · exact h2 x hx
              · simp at hx
                subst hx
                exact ⟨pyStrip_idem s, hcond.1⟩
          · exact ih _ h1 h2
      | jnull => exact ih _ h1 h2
      | jbool b => exact ih _ h1 h2
      | jnum q => exact ih _ h1 h2
      | jarr xs => exact ih _ h1 h2
      | jobj kvs => exact ih _ h1 h2

theorem normGroupsAux_fixed :
    ∀ (gs acc : List String), (∀ g ∈ gs, pyStrip g = g ∧ g ≠ "") → gs.Nodup →
      (∀ g ∈ gs, g ∉ acc) →
      normGroupsAux (gs.map .jstr) acc = acc ++ gs := by
  intro gs
  induction gs with
  | nil => intro acc _ _ _; simp [normGroupsAux]
  | cons g rest ih =>
      intro acc hclean hnodup hdisj
      obtain ⟨hg1, hg2⟩ := hclean g (List.mem_cons_self _ _)
      have hnotacc : g ∉ acc := hdisj g (List.mem_cons_self _ _)
      simp only [List.map_cons, normGroupsAux, hg1]
      rw [if_pos ⟨hg2, hnotacc⟩]
      rw [ih (acc ++ [g]) (fun x hx => hclean x (List.mem_cons_of_mem _ hx))
        (List.Nodup.of_cons hnodup) ?_]
      · simp
      · intro x hx
        simp only [List.mem_append, List.mem_singleton]
        push_neg
        refine ⟨hdisj x (List.mem_cons_of_mem _ hx), ?_⟩
        intro he
        subst he
        exact (List.nodup_cons.mp hnodup).1 hx

-- ── Shape of the top-level document dict ─────────────────────────────────

/-- The tail of the document dict after the two reserved keys: no shadowing
of `projects`/`groups` and no duplicate keys (true of every Python dict). -/
def goodTail (rest : Obj) : Prop :=
  "projects" ∉ dkeys rest ∧ "groups" ∉ dkeys rest ∧ (dkeys rest).Nodup

theorem dset_shape (P G : JVal) (rest : Obj) (k : String) (v : JVal)
    (h : goodTail rest) :
    ∃ P' G' rest', dset (("projects", P) :: ("groups", G) :: rest) k v
      = ("projects", P') :: ("groups", G') :: rest' ∧ goodTail rest' := by
  by_cases hp : k = "projects"
  · subst hp
    exact ⟨v, G, rest, by simp [dset], h⟩
  · by_cases hg : k = "groups"
    · subst hg
      exact ⟨P, v, rest, by simp [dset, Ne.symm hp], h⟩
    · refine ⟨P, G, dset rest k v, by simp [dset, Ne.symm hp, Ne.symm hg], ?_⟩
      obtain ⟨h1, h2, h3⟩ := h
      rw [goodTail, dkeys_dset]
      by_cases hm : k ∈ dkeys rest
      · simp [hm, h1, h2, h3]
      · have hp' : "projects" ≠ k := fun he => hp he.symm
        have hg' : "groups" ≠ k := fun he => hg he.symm
        rw [if_neg hm]
        refine ⟨?_, ?_, ?_⟩
        · simp [h1, hp']
        · simp [h2, hg']
        · simp [List.nodup_append, h3, hm]

theorem dictUpdate_shape (kvs : Obj) :
    ∀ (P G : JVal) (rest : Obj), goodTail rest →
      ∃ P' G' rest', dictUpdate (("projects", P) :: ("groups", G) :: rest) kvs
        = ("projects", P') :: ("groups", G') :: rest' ∧ goodTail rest' := by
  induction kvs with
  | nil => intro P G rest h; exact ⟨P, G, rest, rfl, h⟩
  | cons kv tl ih =>
      intro P G rest h
      obtain ⟨P', G', rest', heq, h'⟩ := dset_shape P G rest kv.1 kv.2 h
      have hstep : dictUpdate (("projects", P) :: ("groups", G) :: rest) (kv :: tl)
          = dictUpdate (dset (("projects", P) :: ("groups", G) :: rest) kv.1 kv.2) tl := rfl
      rw [hstep, heq]
      exact ih P' G' rest' h'

theorem dset_append {α : Type} (l : List (String × α)) (k : String) (v : α)
    (h : k ∉ dkeys l) : dset l k v = l ++ [(k, v)] := by
  induction l with
  | nil => rfl
  | cons hd tl ih =>
      simp only [dkeys, List.map_cons, List.mem_cons] at h
      push_neg at h
      simp only [dset, List.cons_append]
      rw [if_neg (fun he => h.1 he.symm), ih h.2]

theorem dictUpdate_disjoint {α : Type} :
    ∀ (src acc : List (String × α)),
      (∀ k ∈ dkeys src, k ∉ dkeys acc) → (dkeys src).Nodup →
      dictUpdate acc src = acc ++ src := by
  intro src
  induction src with
  | nil => intro acc _ _; simp [dictUpdate]
  | cons kv tl ih =>
      intro acc hdisj hnodup
      obtain ⟨k, v⟩ := kv
      have hstep : dictUpdate acc ((k, v) :: tl) = dictUpdate (dset acc k v) tl := rfl
      rw [hstep, dset_append acc k v (hdisj k (by simp [dkeys]))]
      rw [ih (acc ++ [(k, v)]) ?_ ?_]
      · simp
      · intro k' hk'
        simp only [dkeys, List.map_append, List.mem_append] at hk' ⊢
        push_neg
        refine ⟨fun hmem => hdisj k' (by simp [dkeys, hk']) (by simpa [dkeys] using hmem), ?_⟩
        simp only [dkeys, List.map_cons, List.map_nil, List.mem_singleton]
        intro he
        subst he
        simp only [dkeys, List.map_cons, List.nodup_cons] at hnodup
        exact hnodup.1 hk'
      · simp only [dkeys, List.map_cons, List.nodup_cons] at hnodup
        exact hnodup.2

theorem dictUpdate_baseDoc_id (P G : JVal) (rest : Obj) (h : goodTail rest) :
    dictUpdate baseDoc (("projects", P) :: ("groups", G) :: rest)
      = ("projects", P) :: ("groups", G) :: rest := by
  have hstep : dictUpdate baseDoc (("projects", P) :: ("groups", G) :: rest)
      = dictUpdate [("projects", P), ("groups", G)] rest := by
    show List.foldl _ _ _ = _
    rw [List.foldl_cons, List.foldl_cons]
    rfl
  rw [hstep, dictUpdate_disjoint rest [("projects", P), ("groups", G)] ?_ h.2.2]
  · simp
  · intro k hk
    have h1 : k ≠ "projects" := fun he => h.1 (he ▸ hk)
    have h2 : k ≠ "groups" := fun he => h.2.1 (he ▸ hk)
    simp [dkeys, h1, h2]

theorem ensureProjects_shape (P G : JVal) (rest : Obj) :
    ∃ ps, ensureProjects (("projects", P) :: ("groups", G) :: rest)
      = ("projects", .jobj ps) :: ("groups", G) :: rest := by
  have hl : dlookup (("projects", P) :: ("groups", G) :: rest) "projects" = some P := by
    simp [dlookup]
  cases P with
  | jobj ps => exact ⟨ps, by simp [ensureProjects, hl]⟩
  | jnull => exact ⟨[], by simp [ensureProjects, hl, dset]⟩
  | jbool b => exact ⟨[], by simp [ensureProjects, hl, dset]⟩
  | jnum q => exact ⟨[], by simp [ensureProjects, hl, dset]⟩
  | jstr s => exact ⟨[], by simp [ensureProjects, hl, dset]⟩
  | jarr xs => exact ⟨[], by simp [ensureProjects, hl, dset]⟩

theorem ensureGroups_shape (P G : JVal) (rest : Obj) :
    ∃ gs, ensureGroups (("projects", P) :: ("groups", G) :: rest)
      = ("projects", P) :: ("groups", .jarr gs) :: rest := by
  have hl : dlookup (("projects", P) :: ("groups", G) :: rest) "groups" = some G := by
    simp [dlookup]
  cases G with
  | jarr gs => exact ⟨gs, by simp [ensureGroups, hl]⟩
  | jnull => exact ⟨[.jstr DEFAULT_GROUP], by simp [ensureGroups, hl, dset]⟩
  | jbool b => exact ⟨[.jstr DEFAULT_GROUP], by simp [ensureGroups, hl, dset]⟩
  | jnum q => exact ⟨[.jstr DEFAULT_GROUP], by simp [ensureGroups, hl, dset]⟩
  | jstr s => exact ⟨[.jstr DEFAULT_GROUP], by simp [ensureGroups, hl, dset]⟩
  | jobj kvs => exact ⟨[.jstr DEFAULT_GROUP], by simp [ensureGroups, hl, dset]⟩

theorem step0_shape (D : JVal) :
    ∃ P G rest, step0 D = ("projects", P) :: ("groups", G) :: rest ∧ goodTail rest := by
  have hbase : goodTail ([] : Obj) := by simp [goodTail, dkeys]
  cases D with
  | jobj kvs =>
      obtain ⟨P', G', rest', heq, h'⟩ := dictUpdate_shape kvs (.jobj []) (.jarr [.jstr DEFAULT_GROUP]) [] hbase
      exact ⟨P', G', rest', heq, h'⟩
  | jnull => exact ⟨_, _, [], rfl, hbase⟩
  | jbool b => exact ⟨_, _, [], rfl, hbase⟩
  | jnum q => exact ⟨_, _, [], rfl, hbase⟩
  | jstr s => exact ⟨_, _, [], rfl, hbase⟩
  | jarr xs => exact ⟨_, _, [], rfl, hbase⟩

/-- Structure of every normalized document: `projects` first, `groups`
second, untouched extra keys after; groups are trimmed, non-empty, unique,
contain the default group; every project is a fixed point of
`normProject` with its group in `groups`. -/
theorem load_norm_struct (D : JVal) :
    ∃ (ps : List (String × JVal)) (gs : List String) (rest : Obj),
      goodTail rest ∧
      load_norm D = .jobj (("projects", .jobj ps) ::
        ("groups", .jarr (gs.map .jstr)) :: rest) ∧
      gs.Nodup ∧ (∀ g ∈ gs, pyStrip g = g ∧ g ≠ "") ∧ DEFAULT_GROUP ∈ gs ∧
      (∀ pr ∈ ps, ∃ g, normProject pr.2 = (pr.2, some g) ∧ g ∈ gs) := by
  obtain ⟨P0, G0, rest, hstep0, htail⟩ := step0_shape D
  obtain ⟨ps0, hep⟩ := ensureProjects_shape P0 G0 rest
  obtain ⟨gs0, heg⟩ := ensureGroups_shape (.jobj ps0) G0 rest
  set data1 : Obj := ("projects", .jobj ps0) :: ("groups", .jarr gs0) :: rest with hd1
  have hdata : ensureGroups (ensureProjects (step0 D)) = data1 := by
    rw [hstep0, hep, heg, hd1]
  have hrawG : rawGroups data1 = gs0 := by
    rw [hd1]
    simp [rawGroups, dlookup]
  have hrawP : rawProjects data1 = ps0 := by
    rw [hd1]
    simp [rawProjects, dlookup]
  obtain ⟨hngN, hngC⟩ := normGroupsAux_clean_nodup gs0 [] (by simp) (by simp)
  set ngs := normGroupsAux gs0 [] with hngs
  set gs1 := if DEFAULT_GROUP ∈ ngs then ngs else DEFAULT_GROUP :: ngs with hgs1def
  have hgp : groupsPass data1 = gs1 := by
    unfold groupsPass
    rw [hrawG, ← hngs]
  have hgs1N : gs1.Nodup := by
    by_cases hm : DEFAULT_GROUP ∈ ngs
    · rw [hgs1def, if_pos hm]; exact hngN
    · rw [hgs1def, if_neg hm]; exact List.nodup_cons.mpr ⟨hm, hngN⟩
  have hgs1C : ∀ g ∈ gs1, pyStrip g = g ∧ g ≠ "" := by
    by_cases hm : DEFAULT_GROUP ∈ ngs
    · rw [hgs1def, if_pos hm]; exact hngC
    · rw [hgs1def, if_neg hm]
      intro g hg
      rcases List.mem_cons.mp hg with hg | hg
      · subst hg; exact ⟨by decide, by decide⟩
      · exact hngC g hg
  have hgs1D : DEFAULT_GROUP ∈ gs1 := by
    by_cases hm : DEFAULT_GROUP ∈ ngs
    · rw [hgs1def, if_pos hm]; exact hm
    · rw [hgs1def, if_neg hm]; exact List.mem_cons_self _ _
  obtain ⟨hout1, hout2⟩ := normProjects_out ps0 gs1 hgs1D
  obtain ⟨hgs2N, hgs2C⟩ := normProjects_groups_clean ps0 gs1 hgs1N hgs1C
  refine ⟨(normProjects ps0 gs1).1, (normProjects ps0 gs1).2, rest, htail, ?_,
    hgs2N, hgs2C, hout2, hout1⟩
  unfold load_norm
  rw [hdata]
  unfold loadFrom normAll
  rw [hrawP, hgp, hd1]
  simp [dset]

/-- c2: applying the load-time normalization twice yields the same result
as applying it once, for every JSON value accepted by the loader:
`load_data`'s normalization is idempotent. -/
theorem c2_normalization_idempotent (D : JVal) :
    load_norm (load_norm D) = load_norm D := by
  obtain ⟨ps, gs, rest, htail, heq, hnodup, hclean, hdefault, hfix⟩ := load_norm_struct D
  rw [heq]
  set lR : Obj := ("projects", .jobj ps) :: ("groups", .jarr (gs.map .jstr)) :: rest with hlR
  have hstep : step0 (.jobj lR) = lR := by
    show dictUpdate baseDoc lR = lR
    rw [hlR]
    exact dictUpdate_baseDoc_id _ _ _ htail
  have hEP : ensureProjects lR = lR := by
    rw [hlR]
    simp [ensureProjects, dlookup]
  have hEG : ensureGroups lR = lR := by
    rw [hlR]
    simp [ensureGroups, dlookup]
  have hrawP : rawProjects lR = ps := by
    rw [hlR]
    simp [rawProjects, dlookup]
  have hrawG : rawGroups lR = gs.map .jstr := by
    rw [hlR]
    simp [rawGroups, dlookup]
  have hGP : groupsPass lR = gs := by
    unfold groupsPass
    rw [hrawG, normGroupsAux_fixed gs [] hclean hnodup (by simp)]
    simp [hdefault]
  have hNA : normAll lR = (ps, gs) := by
    unfold normAll
    rw [hrawP, hGP, normProjects_fixed ps gs hfix]
  unfold load_norm
  rw [hstep, hEP, hEG]
  unfold loadFrom
  rw [hNA, hlR]
  simp [dset]

-- ── Aggregation engine (main.py lines 92-115) ────────────────────────────

/-- Python exceptions that the embedded code can raise. -/
inductive PyErr where
  | typeError
  | valueError
  | keyError
  | attributeError
deriving DecidableEq, Repr

/-- `d.get(k, default)` on a dict. -/
def objGet (kvs : Obj) (k : String) (default : JVal) : JVal :=
  (dlookup kvs k).getD default

/-- All-digit check for `float(str)` parsing. -/
def digitsOk (cs : List Char) : Bool := !cs.isEmpty && cs.all Char.isDigit

/-- Decimal value of a digit list. -/
def natOfDigits (cs : List Char) : ℕ :=
  cs.foldl (fun a c => a * 10 + (c.toNat - 48)) 0

/-- `float(s)` for strings: optional surrounding whitespace, optional sign,
decimal digits with an optional fractional part.  (Python additionally
accepts exponents, `inf`/`nan` and digit-group underscores; those forms are
treated as unparsable here and are not exercised by any claim.) -/
def parseFloat? (s : String) : Option ℚ :=
  let cs := stripL s.data
  let sb : ℚ × List Char :=
    match cs with
    | '-' :: r => (-1, r)
    | '+' :: r => (1, r)
    | _ => (1, cs)
  let ip := sb.2.takeWhile (fun c => c != '.')
  match sb.2.dropWhile (fun c => c != '.') with
  | [] => if digitsOk ip then some (sb.1 * natOfDigits ip) else none
  | _ :: fp =>
      if ip.all Char.isDigit && fp.all Char.isDigit && (!ip.isEmpty || !fp.isEmpty) then
        some (sb.1 * ((natOfDigits ip : ℚ) + (natOfDigits fp : ℚ) / (10 : ℚ) ^ fp.length))
      else none

/-- `float(x)` on a JSON value: numbers are themselves, booleans are 0/1,
strings are parsed; `None`, lists and dicts fail (TypeError). -/
def pyFloat? : JVal → Option ℚ
  | .jnum q => some q
  | .jbool b => some (if b then 1 else 0)
  | .jstr s => parseFloat? s
  | _ => none

/-- `_safe_float` (lines 92-98): `None` and any value `float()` rejects
give the default. -/
def safe_float (x : JVal) (default : ℚ) : ℚ :=
  match x with
  | .jnull => default
  | v => (pyFloat? v).getD default

/-- Python `round(x)` on an exact rational: round half to even.  (Python
rounds binary floats; every value a claim evaluates is exactly
representable in the claim-relevant direction, and no tie-vs-float
discrepancy is exercised.) -/
def pyRoundInt (q : ℚ) : ℤ :=
  let f := ⌊q⌋
  let r := q - f
  if r < 1 / 2 then f
  else if 1 / 2 < r then f + 1
  else if f % 2 = 0 then f else f + 1

/-- `round(x, 2)`. -/
def round2 (q : ℚ) : ℚ := (pyRoundInt (q * 100) : ℚ) / 100

/-- `round(x, 1)`. -/
def round1 (q : ℚ) : ℚ := (pyRoundInt (q * 10) : ℚ) / 10

/-- `log.get("duration", 0.0)` passed to `_safe_float` (line 104); a
non-dict entry has no `.get` and raises `AttributeError`. -/
def logDuration : JVal → Except PyErr ℚ
  | .jobj kvs => .ok (safe_float (objGet kvs "duration" (.jnum 0)) 0)
  | _ => .error .attributeError

/-- The summation loop of lines 102-104 (addition on exact rationals is
associative, so the fold direction does not matter). -/
def sumDurations : List JVal → Except PyErr ℚ
  | [] => .ok 0
  | log :: rest => do
      let d ← logDuration log
      let t ← sumDurations rest
      .ok (d + t)

/-- `compute_project_total_hours` (lines 101-105); the loop iterates
`project.get("time_logs", []) or []`. -/
def compute_project_total_hours (project : Obj) : Except PyErr ℚ :=
  let v := objGet project "time_logs" (.jarr [])
  let v' := if pyTruthy v then v else .jarr []
  match iterElems v' with
  | none => .error .typeError
  | some logs => sumDurations logs

/-- `proj or {}` at line 112; a truthy non-dict value later raises in
`compute_project_total_hours`'s `.get`. -/
def asProjectDict (v : JVal) : Except PyErr Obj :=
  match v with
  | .jobj kvs => .ok kvs
  | v => if pyTruthy v then .error .attributeError else .ok []

/-- The loop of `compute_all_totals` (lines 109-114): per-project rounded
totals in order, plus the running unrounded overall sum. -/
def allTotalsAux : List (String × JVal) → Except PyErr (List (String × ℚ) × ℚ)
  | [] => .ok ([], 0)
  | (name, proj) :: rest => do
      let p ← asProjectDict proj
      let t ← compute_project_total_hours p
      let r ← allTotalsAux rest
      .ok ((name, round2 t) :: r.1, t + r.2)

/-- `compute_all_totals` (lines 108-115): returns the per-project dict and
`round(overall, 2)`. -/
def compute_all_totals (projects : List (String × JVal)) :
    Except PyErr (List (String × ℚ) × ℚ) := do
  let r ← allTotalsAux projects
  .ok (r.1, round2 r.2)

/-- The unrounded per-project totals, in order (specification helper). -/
def rawTotals : List (String × JVal) → Except PyErr (List ℚ)
  | [] => .ok []
  | (_, proj) :: rest => do
      let p ← asProjectDict proj
      let t ← compute_project_total_hours p
      let r ← rawTotals rest
      .ok (t :: r)

theorem allTotalsAux_eq (projects : List (String × JVal)) (ts : List ℚ)
    (h : rawTotals projects = .ok ts) :
    allTotalsAux projects = .ok ((projects.map Prod.fst).zip (ts.map round2), ts.sum) := by
  induction projects generalizing ts with
  | nil =>
      simp [rawTotals] at h
      subst h
      simp [allTotalsAux]
  | cons pr rest ih =>
      obtain ⟨n, p⟩ := pr
      cases hp : asProjectDict p with
      | error e => simp [rawTotals, hp, bind, Except.bind] at h
      | ok pd =>
          cases ht : compute_project_total_hours pd with
          | error e => simp [rawTotals, hp, ht, bind, Except.bind] at h
          | ok t =>
              cases hr : rawTotals rest with
              | error e => simp [rawTotals, hp, ht, hr, bind, Except.bind] at h
              | ok ts' =>
                  simp only [rawTotals, hp, ht, hr, bind, Except.bind] at h
                  simp only [Except.ok.injEq] at h
                  subst h
                  simp [allTotalsAux, hp, ht, ih ts' hr, bind, Except.bind]

/-- Example for the totals claims: two projects with exact total 0.004 h
each (as Python floats: `round(0.004, 2) == 0.0` per project, while the
unrounded sum 0.008 rounds to 0.01). -/
def c1ex : List (String × JVal) :=
  [("a", .jobj [("time_logs", .jarr [.jobj [("duration", .jnum (1 / 250))]])]),
   ("b", .jobj [("time_logs", .jarr [.jobj [("duration", .jnum (1 / 250))]])])]

theorem c1ex_project_total :
    compute_project_total_hours [("time_logs", .jarr [.jobj [("duration", .jnum (1 / 250))]])]
      = .ok (1 / 250) := by
  simp [compute_project_total_hours, objGet, dlookup, pyTruthy, iterElems, sumDurations,
    logDuration, safe_float, pyFloat?, bind, Except.bind]

/-- c1 counterexample: the overall total returned by `compute_all_totals`
is the rounding of the sum of the UNROUNDED per-project totals, not of the
already-rounded ones: on `c1ex` the code returns overall 0.01 while the
2-decimal-rounded sum of the rounded per-project totals (0.0 and 0.0)
is 0.0. -/
theorem c1_counterexample :
    compute_all_totals c1ex = .ok ([("a", 0), ("b", 0)], 1 / 100) ∧
    round2 ((([("a", (0 : ℚ)), ("b", 0)] : List (String × ℚ)).map Prod.snd).sum) = 0 ∧
    (1 / 100 : ℚ) ≠ 0 := by
  refine ⟨?_, by norm_num [round2, pyRoundInt], by norm_num⟩
  simp only [c1ex, compute_all_totals, allTotalsAux, asProjectDict, c1ex_project_total,
    bind, Except.bind]
  norm_num [round2, pyRoundInt]

/-- c1 amended: for every project mapping whose totals evaluate without a
Python exception, `compute_all_totals` returns the per-project totals each
rounded to 2 decimals, and an overall total that is the 2-decimal rounding
of the sum of the UNROUNDED per-project totals (per-project rounding is
applied only to the returned per-project figures, not to the grand-total
summation). -/
theorem c1_amended (projects : List (String × JVal)) (ts : List ℚ)
    (h : rawTotals projects = .ok ts) :
    compute_all_totals projects =
      .ok ((projects.map Prod.fst).zip (ts.map round2), round2 ts.sum) := by
  unfold compute_all_totals
  rw [allTotalsAux_eq projects ts h]
  rfl

/-- c1 amended, witness at `c1ex`. -/
theorem c1_amended_witness :
    compute_all_totals c1ex =
      .ok ((c1ex.map Prod.fst).zip (([1 / 250, 1 / 250] : List ℚ).map round2),
        round2 ([1 / 250, 1 / 250] : List ℚ).sum) :=
  c1_amended c1ex [1 / 250, 1 / 250] (by
    simp only [c1ex, rawTotals, asProjectDict, c1ex_project_total, bind, Except.bind])

/-- A project whose `time_logs` contains a non-dict entry. -/
def c8ex : Obj := [("time_logs", .jarr [.jnum 1])]

/-- c8 counterexample: `compute_project_total_hours` DOES raise on a
non-object `time_logs` entry (the entry has no `.get`, so line 104 raises
`AttributeError`), contrary to the claim that it never raises. -/
theorem c8_counterexample :
    compute_project_total_hours c8ex = .error .attributeError := by
  simp [c8ex, compute_project_total_hours, objGet, dlookup, pyTruthy, iterElems,
    sumDurations, logDuration, bind, Except.bind]

theorem sumDurations_objs (xs : List Obj) :
    sumDurations (xs.map .jobj) =
      .ok ((xs.map (fun kvs => safe_float (objGet kvs "duration" (.jnum 0)) 0)).sum) := by
  induction xs with
  | nil => simp [sumDurations]
  | cons hd tl ih => simp [sumDurations, logDuration, bind, Except.bind, ih]

/-- c8 amended: `compute_project_total_hours` never raises PROVIDED every
`time_logs` entry is an object: it returns the sum of the entries'
durations with each missing or `float()`-rejected duration replaced by
zero.  (A non-object entry instead raises `AttributeError`, see the
counterexample.) -/
theorem c8_amended (project : Obj) (xs : List Obj)
    (h : dlookup project "time_logs" = some (.jarr (xs.map .jobj))) :
    compute_project_total_hours project =
      .ok ((xs.map (fun kvs => safe_float (objGet kvs "duration" (.jnum 0)) 0)).sum) := by
  unfold compute_project_total_hours
  rw [show objGet project "time_logs" (.jarr []) = .jarr (xs.map .jobj) from by
    simp [objGet, h]]
  cases xs with
  | nil => simp [pyTruthy, iterElems, sumDurations]
  | cons hd tl =>
      simp only [pyTruthy, List.map_cons, List.isEmpty_cons, Bool.not_false, if_true, iterElems]
      exact sumDurations_objs (hd :: tl)

/-- A project with one well-formed entry (1.5 hours) and one empty-object
entry (duration treated as 0). -/
def c8ex2 : Obj := [("time_logs", .jarr [.jobj [("duration", .jnum (3 / 2))], .jobj []])]

/-- c8 amended, witness at `c8ex2`: total is 1.5 + 0. -/
theorem c8_amended_witness :
    compute_project_total_hours c8ex2 =
      .ok ((([[("duration", JVal.jnum (3 / 2))], []] : List Obj).map
        (fun kvs => safe_float (objGet kvs "duration" (.jnum 0)) 0)).sum) :=
  c8_amended c8ex2 [[("duration", .jnum (3 / 2))], []] (by
    simp [c8ex2, dlookup])

-- ── Documents after load, and wall-clock time (main.py lines 453-501) ────

/-- A loaded, normalized document: `load_data` guarantees `projects` is a
dict whose values are dicts and `groups` is a list of strings (see
`load_norm_struct`); the mutation routes only ever touch these two keys. -/
structure Doc where
  projects : List (String × Obj)
  groups : List String

/-- `Option`-valued map over a list (all-or-nothing). -/
def optMap {α β : Type} (f : α → Option β) : List α → Option (List β)
  | [] => some []
  | x :: xs => do
      let y ← f x
      let ys ← optMap f xs
      some (y :: ys)

/-- Reading a normalized document into a `Doc`; `none` when the value does
not have the shape `load_data` guarantees. -/
def docOf? (j : JVal) : Option Doc :=
  match j with
  | .jobj kvs =>
      match dlookup kvs "projects", dlookup kvs "groups" with
      | some (.jobj ps), some (.jarr gs) => do
          let ps' ← optMap (fun pr =>
            match pr.2 with
            | .jobj o => some (pr.1, o)
            | _ => none) ps
          let gs' ← optMap (fun g =>
            match g with
            | .jstr s => some s
            | _ => none) gs
          some ⟨ps', gs'⟩
      | _, _ => none
  | _ => none

/-- A `datetime.datetime` at second precision (the only precision the code
stores: `isoformat(timespec="seconds")` / `%H:%M:%S`). -/
structure PyDateTime where
  year : ℕ
  month : ℕ
  day : ℕ
  hour : ℕ
  minute : ℕ
  second : ℕ
deriving DecidableEq, Repr

/-- Days since 1970-01-01 of a civil date (standard days-from-civil
computation; all intermediate values are non-negative for years ≥ 1, which
`fromisoformat?` guarantees, so the division convention is immaterial). -/
def daysFromCivil (y m d : ℤ) : ℤ :=
  let y' := if m ≤ 2 then y - 1 else y
  let era := (if 0 ≤ y' then y' else y' - 399) / 400
  let yoe := y' - era * 400
  let mp := (m + 9) % 12
  let doy := (153 * mp + 2) / 5 + d - 1
  let doe := yoe * 365 + yoe / 4 - yoe / 100 + doy
  era * 146097 + doe - 719468

/-- Seconds since the epoch; datetime subtraction (`end − start`) followed
by `.total_seconds()` is the difference of these values. -/
def toSeconds (t : PyDateTime) : ℤ :=
  daysFromCivil t.year t.month t.day * 86400 + t.hour * 3600 + t.minute * 60 + t.second

/-- Leap year rule. -/
def isLeap (y : ℕ) : Bool := (y % 4 = 0 && y % 100 ≠ 0) || y % 400 = 0

/-- Days in a month. -/
def daysInMonth (y m : ℕ) : ℕ :=
  if m = 2 then (if isLeap y then 29 else 28)
  else if m = 4 || m = 6 || m = 9 || m = 11 then 30
  else 31

/-- Numeric value of a decimal digit character. -/
def digitVal (c : Char) : ℕ := c.toNat - 48

/-- `datetime.fromisoformat` restricted to the exact shape this program
ever stores, `YYYY-MM-DDTHH:MM:SS` (what `isoformat(timespec="seconds")`
produces at line 457); anything else is `none` (a raised `ValueError`). -/
def fromisoformat? (s : String) : Option PyDateTime :=
  match s.data with
  | [y1, y2, y3, y4, '-', m1, m2, '-', d1, d2, 'T', h1, h2, ':', mi1, mi2, ':', s1, s2] =>
      if [y1, y2, y3, y4, m1, m2, d1, d2, h1, h2, mi1, mi2, s1, s2].all Char.isDigit then
        let y := ((digitVal y1 * 10 + digitVal y2) * 10 + digitVal y3) * 10 + digitVal y4
        let mo := digitVal m1 * 10 + digitVal m2
        let da := digitVal d1 * 10 + digitVal d2
        let h := digitVal h1 * 10 + digitVal h2
        let mi := digitVal mi1 * 10 + digitVal mi2
        let se := digitVal s1 * 10 + digitVal s2
        if 1 ≤ y ∧ 1 ≤ mo ∧ mo ≤ 12 ∧ 1 ≤ da ∧ da ≤ daysInMonth y mo ∧
            h ≤ 23 ∧ mi ≤ 59 ∧ se ≤ 59 then
          some ⟨y, mo, da, h, mi, se⟩
        else none
      else none
  | _ => none

/-- Two-digit zero-padded field of `strftime`. -/
def two (n : ℕ) : String := if n < 10 then "0" ++ toString n else toString n

/-- `dt.strftime("%H:%M:%S")`. -/
def strftimeHMS (t : PyDateTime) : String :=
  two t.hour ++ ":" ++ two t.minute ++ ":" ++ two t.second

/-- Responses of the `/start_time_log` route. -/
inductive StartResp where
  | errNotFound
  | errRunning
  | started (start_time : String)
deriving DecidableEq, Repr

/-- `start_time_log` (lines 453-468).  `nowIso` is
`dt.now().isoformat(timespec="seconds")` and `today` is
`get_today_persian()`; the route strips the submitted project name.  The
`Bool` records whether `save_data` ran. -/
def start_time_log (d : Doc) (project : String) (nowIso : String) (today : String) :
    Doc × Bool × StartResp :=
  let project := pyStrip project
  match dlookup d.projects project with
  | none => (d, false, .errNotFound)
  | some p =>
      if pyTruthy (objGet p "current_session" .jnull) then (d, false, .errRunning)
      else
        let p' := dset p "current_session"
          (.jobj [("start_time", .jstr nowIso), ("date", .jstr today)])
        ({ d with projects := dset d.projects project p' }, true, .started nowIso)

/-- Responses of the `/end_time_log` route. -/
inductive EndResp where
  | errNoActive
  | ended (duration : ℚ) (log : JVal)

/-- `end_time_log` (lines 471-501).  `now` is the wall clock at the stop
call; `fromisoformat(end_time_iso)` round-trips to `now` at second
precision so `end_dt = now`.  The session's `start_time` is parsed with
`fromisoformat` (raising on a malformed value), the duration is rounded to
2 decimals then clamped at zero, the `TimeLog` uses the session's stored
`date` (falling back to today), and `current_session` is popped. -/
def end_time_log (d : Doc) (project : String) (now : PyDateTime) (today : String) :
    Except PyErr (Doc × Bool × EndResp) :=
  let project := pyStrip project
  match dlookup d.projects project with
  | none => .ok (d, false, .errNoActive)
  | some p =>
      match dlookup p "current_session" with
      | none => .ok (d, false, .errNoActive)
      | some cs => do
          let stv ← match cs with
            | .jobj cskvs =>
                match dlookup cskvs "start_time" with
                | some v => Except.ok v
                | none => Except.error PyErr.keyError
            | _ => Except.error PyErr.typeError
          let stStr ← match stv with
            | .jstr s => Except.ok s
            | _ => Except.error PyErr.typeError
          let st ← match fromisoformat? stStr with
            | some t => Except.ok t
            | none => Except.error PyErr.valueError
          let dur0 := round2 (((toSeconds now - toSeconds st : ℤ) : ℚ) / 3600)
          let duration := if dur0 < 0 then 0 else dur0
          let date := match cs with
            | .jobj cskvs => objGet cskvs "date" (.jstr today)
            | _ => .jstr today
          let tl := JVal.jobj [("date", date), ("start_time", .jstr (strftimeHMS st)),
            ("end_time", .jstr (strftimeHMS now)), ("duration", .jnum duration)]
          let p1 ← match dlookup p "time_logs" with
            | some (.jarr xs) => Except.ok (dset p "time_logs" (.jarr (xs ++ [tl])))
            | some _ => Except.error PyErr.attributeError
            | none => Except.ok (dset p "time_logs" (.jarr [tl]))
          let p2 := dremove p1 "current_session"
          Except.ok ({ d with projects := dset d.projects project p2 }, true, .ended duration tl)

/-- c3: for every project with an open session (well-formed as the start
route writes it), stop computes `duration = round((end − start) in hours,
2)` clamped at zero, appends a TimeLog with the session's recorded date and
`HH:MM:SS` wall-clock times, removes `current_session`, saves, and returns
the duration and the new entry. -/
theorem c3_stop_semantics (d : Doc) (project : String) (p cs : Obj) (stStr : String)
    (st now : PyDateTime) (today : String) (logs : List JVal) (datev : JVal)
    (hstrip : pyStrip project = project)
    (hproj : dlookup d.projects project = some p)
    (hcs : dlookup p "current_session" = some (.jobj cs))
    (hst : dlookup cs "start_time" = some (.jstr stStr))
    (hparse : fromisoformat? stStr = some st)
    (hdate : dlookup cs "date" = some datev)
    (hlogs : dlookup p "time_logs" = some (.jarr logs)) :
    end_time_log d project now today =
      .ok (⟨dset d.projects project
          (dremove (dset p "time_logs" (.jarr (logs ++
            [JVal.jobj [("date", datev),
              ("start_time", .jstr (strftimeHMS st)),
              ("end_time", .jstr (strftimeHMS now)),
              ("duration", .jnum (if round2 (((toSeconds now - toSeconds st : ℤ) : ℚ) / 3600) < 0
                then 0 else round2 (((toSeconds now - toSeconds st : ℤ) : ℚ) / 3600)))]])))
          "current_session"), d.groups⟩, true,
        .ended
          (if round2 (((toSeconds now - toSeconds st : ℤ) : ℚ) / 3600) < 0
            then 0 else round2 (((toSeconds now - toSeconds st : ℤ) : ℚ) / 3600))
          (JVal.jobj [("date", datev),
            ("start_time", .jstr (strftimeHMS st)),
            ("end_time", .jstr (strftimeHMS now)),
            ("duration", .jnum (if round2 (((toSeconds now - toSeconds st : ℤ) : ℚ) / 3600) < 0
              then 0 else round2 (((toSeconds now - toSeconds st : ℤ) : ℚ) / 3600)))])) := by
  simp only [end_time_log, hstrip, hproj, hcs, hst, hparse, hlogs, objGet, hdate,
    Option.getD_some, bind, Except.bind]

/-- The example project of the spec's stop test: session started at
`2024-01-01T10:00:00`. -/
def c3p : Obj :=
  [("time_logs", .jarr []),
   ("current_session", .jobj [("start_time", .jstr "2024-01-01T10:00:00"),
     ("date", .jstr "2024-01-01")])]

/-- Document holding `c3p` under project name `p`. -/
def c3doc : Doc := ⟨[("p", c3p)], [DEFAULT_GROUP]⟩

/-- c3 witness: stopping at `2024-01-01T11:30:00` yields duration 1.5 and
the expected log entry, with the session removed. -/
theorem c3_stop_witness :
    end_time_log c3doc "p" ⟨2024, 1, 1, 11, 30, 0⟩ "2024-01-01" =
      .ok (⟨[("p", [("time_logs", .jarr [JVal.jobj [("date", .jstr "2024-01-01"),
          ("start_time", .jstr "10:00:00"), ("end_time", .jstr "11:30:00"),
          ("duration", .jnum (3 / 2))]])])], [DEFAULT_GROUP]⟩, true,
        .ended (3 / 2) (JVal.jobj [("date", .jstr "2024-01-01"),
          ("start_time", .jstr "10:00:00"), ("end_time", .jstr "11:30:00"),
          ("duration", .jnum (3 / 2))])) := by
  rw [c3_stop_semantics c3doc "p" c3p
    [("start_time", .jstr "2024-01-01T10:00:00"), ("date", .jstr "2024-01-01")]
    "2024-01-01T10:00:00" ⟨2024, 1, 1, 10, 0, 0⟩ ⟨2024, 1, 1, 11, 30, 0⟩ "2024-01-01"
    [] (.jstr "2024-01-01") (by decide) rfl rfl rfl (by decide) rfl rfl]
  have hsec : toSeconds ⟨2024, 1, 1, 11, 30, 0⟩ - toSeconds ⟨2024, 1, 1, 10, 0, 0⟩ = (5400 : ℤ) := by
    norm_num [toSeconds, daysFromCivil]
  have hs1 : strftimeHMS ⟨2024, 1, 1, 10, 0, 0⟩ = "10:00:00" := by decide
  have hs2 : strftimeHMS ⟨2024, 1, 1, 11, 30, 0⟩ = "11:30:00" := by decide
  have hq : round2 (((5400 : ℤ) : ℚ) / 3600) = 3 / 2 := by
    norm_num [round2, pyRoundInt]
  simp only [hsec, hs1, hs2, hq, c3p, c3doc, dset, dremove]
  norm_num [dset, dremove]
  intro h
  exact absurd h (by decide)

/-- c4: starting a session fails with "Project not found" when the project
is absent, and with "Session already running" when the project's
`current_session` is truthy; in both cases nothing is saved and the
document value returned is the input unchanged. -/
theorem c4_start_errors (d : Doc) (project nowIso today : String) :
    (dlookup d.projects (pyStrip project) = none →
      start_time_log d project nowIso today = (d, false, StartResp.errNotFound)) ∧
    (∀ p, dlookup d.projects (pyStrip project) = some p →
      pyTruthy (objGet p "current_session" .jnull) = true →
      start_time_log d project nowIso today = (d, false, StartResp.errRunning)) := by
  constructor
  · intro h
    simp only [start_time_log, h]
  · intro p hp hr
    simp only [start_time_log, hp, hr, if_true]

/-- A document without project `p`. -/
def c4doc : Doc := ⟨[("q", [])], [DEFAULT_GROUP]⟩

/-- A document whose project `p` has an open session. -/
def c4doc2 : Doc := ⟨[("p", [("current_session", .jobj [("start_time", .jstr "t")])])],
  [DEFAULT_GROUP]⟩

/-- c4 witness: not-found and already-running at concrete documents. -/
theorem c4_start_witness :
    start_time_log c4doc "p" "now" "today" = (c4doc, false, .errNotFound) ∧
    start_time_log c4doc2 "p" "now" "today" = (c4doc2, false, .errRunning) :=
  ⟨(c4_start_errors c4doc "p" "now" "today").1 rfl,
   (c4_start_errors c4doc2 "p" "now" "today").2 _ rfl rfl⟩

-- ── Mutation routes (main.py lines 286-447, 539-557) ─────────────────────

/-- A flashed message (category success/error); error responses never call
`save_data`. -/
inductive Flash where
  | success (msg : String)
  | error (msg : String)
deriving DecidableEq, Repr

/-- `add_group` (lines 286-301). -/
def add_group (d : Doc) (group_name : String) : Doc × Bool × Flash :=
  let name := pyStrip group_name
  if name = "" then (d, false, .error "Group name is required")
  else if name ∈ d.groups then (d, false, .error "Group already exists")
  else ({ d with groups := d.groups ++ [name] }, true,
    .success ("Added group \"" ++ name ++ "\""))

/-- `(p.get("group") or DEFAULT_GROUP) == x` (lines 331, 358): resolve a
project's group value with truthiness fallback and compare to a string. -/
def groupIs (p : Obj) (x : String) : Bool :=
  let gv := objGet p "group" .jnull
  let gv' := if pyTruthy gv then gv else .jstr DEFAULT_GROUP
  jvalEqStr gv' x

/-- `rename_group` (lines 304-336). -/
def rename_group (d : Doc) (old_arg new_arg : String) : Doc × Bool × Flash :=
  let old := pyStrip old_arg
  let new := pyStrip new_arg
  if old = "" ∨ new = "" then
    (d, false, .error "Both old and new group names are required")
  else if old = DEFAULT_GROUP then (d, false, .error "You cannot rename Ungrouped")
  else if old ∉ d.groups then (d, false, .error "Group not found")
  else if new ∈ d.groups then (d, false, .error "New group name already exists")
  else
    (⟨d.projects.map (fun pr =>
        if groupIs pr.2 old then (pr.1, dset pr.2 "group" (.jstr new)) else pr),
      d.groups.map (fun g => if g = old then new else g)⟩, true,
      .success ("Renamed group \"" ++ old ++ "\" -> \"" ++ new ++ "\""))

/-- `delete_group` (lines 339-365). -/
def delete_group (d : Doc) (group_arg : String) : Doc × Bool × Flash :=
  let name := pyStrip group_arg
  if name = "" then (d, false, .error "Group name is required")
  else if name = DEFAULT_GROUP then (d, false, .error "You cannot delete Ungrouped")
  else if name ∉ d.groups then (d, false, .error "Group not found")
  else
    (⟨d.projects.map (fun pr =>
        if groupIs pr.2 name then (pr.1, dset pr.2 "group" (.jstr DEFAULT_GROUP)) else pr),
      d.groups.filter (fun g => g ≠ name)⟩, true,
      .success ("Deleted group \"" ++ name ++ "\" (projects moved to Ungrouped)"))

/-- Tag parsing of lines 376/403. -/
def splitTags (tags_str : String) : List String :=
  ((tags_str.splitOn ",").map pyStrip).filter (fun t => t ≠ "")

/-- `(request.form.get("group") or DEFAULT_GROUP).strip() or DEFAULT_GROUP`
(lines 377/404); an absent form field is the empty string here. -/
def groupArg (group_arg : String) : String :=
  let g := pyStrip (if group_arg = "" then DEFAULT_GROUP else group_arg)
  if g = "" then DEFAULT_GROUP else g

/-- `add_project` (lines 371-395). -/
def add_project (d : Doc) (name_arg tags_str group_arg : String) : Doc × Bool × Flash :=
  let name := pyStrip name_arg
  let tags := splitTags tags_str
  let group := groupArg group_arg
  if name = "" then (d, false, .error "Project name is required")
  else if (dlookup d.projects name).isSome then (d, false, .error "Project already exists")
  else
    (⟨d.projects ++ [(name, [("tags", .jarr (tags.map .jstr)), ("time_logs", .jarr []),
        ("group", .jstr group)])],
      if group ∈ d.groups then d.groups else d.groups ++ [group]⟩, true,
      .success ("Added project \"" ++ name ++ "\" in group \"" ++ group ++ "\""))

/-- `update_project` (lines 398-419). -/
def update_project (d : Doc) (project_arg tags_str group_arg : String) : Doc × Bool × Flash :=
  let project := pyStrip project_arg
  let tags := splitTags tags_str
  let group := groupArg group_arg
  match dlookup d.projects project with
  | none => (d, false, .error "Project not found")
  | some p =>
      (⟨dset d.projects project (dset (dset p "tags" (.jarr (tags.map .jstr))) "group"
          (.jstr group)),
        if group ∈ d.groups then d.groups else d.groups ++ [group]⟩, true,
        .success ("Updated project \"" ++ project ++ "\""))

/-- `delete_project` (lines 437-447); the name is a path parameter and is
not stripped. -/
def delete_project (d : Doc) (project_name : String) : Doc × Bool × Flash :=
  match dlookup d.projects project_name with
  | none => (d, false, .error "Project not found")
  | some _ => (⟨dremove d.projects project_name, d.groups⟩, true,
      .success ("Deleted project \"" ++ project_name ++ "\""))

/-- Modelled from the spec: the manual add-log operation belongs to a
repository variant that is not under src/ (§3 TimeLog, §4.5 mutation
operations); it appends a completed TimeLog entry to an existing project's
`time_logs` and fails with not-found when the project is absent. -/
def add_time_log (d : Doc) (project : String) (entry : JVal) : Doc × Bool × Flash :=
  match dlookup d.projects project with
  | none => (d, false, .error "Project not found")
  | some p =>
      let logs := match dlookup p "time_logs" with
        | some (.jarr xs) => xs
        | _ => []
      (⟨dset d.projects project (dset p "time_logs" (.jarr (logs ++ [entry]))), d.groups⟩,
        true, .success "Added log")

/-- Whether a JSON value is a dict. -/
def isObjB : JVal → Bool
  | .jobj _ => true
  | _ => false

/-- The deletion condition of lines 550-551 on one entry:
`log.get("date") == date and log.get("start_time") == start_time`
(a non-dict entry raises before this is asked, see `filterLogs`). -/
def matchB (date start_time : String) (l : JVal) : Bool :=
  match l with
  | .jobj kvs =>
      jvalEqStr (objGet kvs "date" .jnull) date &&
        jvalEqStr (objGet kvs "start_time" .jnull) start_time
  | _ => false

/-- The list comprehension of lines 549-552; `log.get` raises
`AttributeError` on a non-dict entry. -/
def filterLogs : List JVal → String → String → Except PyErr (List JVal)
  | [], _, _ => .ok []
  | log :: rest, date, start_time =>
      match log with
      | .jobj kvs => do
          let r ← filterLogs rest date start_time
          if jvalEqStr (objGet kvs "date" .jnull) date ∧
              jvalEqStr (objGet kvs "start_time" .jnull) start_time then
            Except.ok r
          else Except.ok (.jobj kvs :: r)
      | _ => .error .attributeError

/-- Responses of the `/delete_time_log` route. -/
inductive JsonResp where
  | okResp
  | err404
deriving DecidableEq, Repr

/-- `delete_time_log` (lines 539-557).  The filtered list is written back
before the length check, so on "Log not found" the in-memory list was
reassigned to an equal value and nothing is saved. -/
def delete_time_log (d : Doc) (project_arg date_arg start_arg : String) :
    Except PyErr (Doc × Bool × JsonResp) :=
  let project := pyStrip project_arg
  let date := pyStrip date_arg
  let start_time := pyStrip start_arg
  match dlookup d.projects project with
  | none => .ok (d, false, .err404)
  | some p =>
      match dlookup p "time_logs" with
      | none => .ok (d, false, .err404)
      | some tlv =>
          match iterElems tlv with
          | none => .error .typeError
          | some logs => do
              let keep ← filterLogs logs date start_time
              let d' : Doc := ⟨dset d.projects project (dset p "time_logs" (.jarr keep)),
                d.groups⟩
              if keep.length < logs.length then Except.ok (d', true, .okResp)
              else Except.ok (d', false, .err404)

theorem filterLogs_eq (logs : List JVal) (date st : String)
    (h : logs.all isObjB = true) :
    filterLogs logs date st = .ok (logs.filter (fun l => !matchB date st l)) := by
  induction logs with
  | nil => simp [filterLogs]
  | cons log rest ih =>
      simp only [List.all_cons, Bool.and_eq_true] at h
      cases log with
      | jobj kvs =>
          by_cases hc : (jvalEqStr (objGet kvs "date" .jnull) date = true ∧
              jvalEqStr (objGet kvs "start_time" .jnull) st = true)
          · simp [filterLogs, ih h.2, bind, Except.bind, hc, matchB, List.filter_cons,
              hc.1, hc.2]
          · have hm : matchB date st (.jobj kvs) = false := by
              simp only [matchB, Bool.and_eq_true_iff]
              rw [Bool.eq_false_iff]
              intro hcon
              exact hc (Bool.and_eq_true_iff.mp hcon)
            simp [filterLogs, ih h.2, bind, Except.bind, hc, List.filter_cons, hm]
      | jnull => simp [isObjB] at h
      | jbool b => simp [isObjB] at h
      | jnum q => simp [isObjB] at h
      | jstr s => simp [isObjB] at h
      | jarr xs => simp [isObjB] at h

theorem length_filter_lt_iff_any (l : List JVal) (p : JVal → Bool) :
    ((l.filter (fun x => !p x)).length < l.length) ↔ l.any p = true := by
  induction l with
  | nil => simp
  | cons x xs ih =>
      cases hx : p x with
      | true =>
          simp [List.filter_cons, hx, Nat.lt_succ_iff]
          exact xs.length_filter_le _
      | false =>
          simp [List.filter_cons, hx, ih, Nat.succ_lt_succ_iff]

/-- A document whose project `p` has a non-dict `time_logs` entry. -/
def c10ex : Doc := ⟨[("p", [("time_logs", .jarr [.jnum 5])])], [DEFAULT_GROUP]⟩

/-- c10 counterexample: on a project whose `time_logs` contains a non-dict
entry, `delete_time_log` raises `AttributeError` (line 551's `log.get`)
instead of reporting not-found, so the claim fails for such documents. -/
theorem c10_counterexample :
    delete_time_log c10ex "p" "d" "s" = .error .attributeError := rfl

/-- c10 amended: provided every `time_logs` entry is an object,
`delete_time_log` removes EVERY entry whose `(date, start_time)` pair
matches (not just the first), touches no other field of the project, and
saves; when nothing matches it returns "Log not found" with the document
unchanged and unsaved. -/
theorem c10_amended (d : Doc) (project date start_time : String) (p : Obj) (logs : List JVal)
    (hsp : pyStrip project = project) (hsd : pyStrip date = date)
    (hss : pyStrip start_time = start_time)
    (hp : dlookup d.projects project = some p)
    (hl : dlookup p "time_logs" = some (.jarr logs))
    (hobj : logs.all isObjB = true) :
    (logs.any (matchB date start_time) = true →
      delete_time_log d project date start_time =
        .ok (⟨dset d.projects project
            (dset p "time_logs" (.jarr (logs.filter (fun l => !matchB date start_time l)))),
          d.groups⟩, true, .okResp)) ∧
    (logs.any (matchB date start_time) = false →
      delete_time_log d project date start_time = .ok (d, false, .err404)) := by
  have hfl := filterLogs_eq logs date start_time hobj
  constructor
  · intro hany
    simp only [delete_time_log, hsp, hsd, hss, hp, hl, iterElems, hfl, bind, Except.bind]
    rw [if_pos ((length_filter_lt_iff_any logs (matchB date start_time)).mpr hany)]
  · intro hany
    have hkeep : logs.filter (fun l => !matchB date start_time l) = logs := by
      apply List.filter_eq_self.mpr
      intro a ha
      simp only [Bool.not_eq_true']
      exact Bool.eq_false_iff.mpr (List.any_eq_false.mp hany a ha)
    simp only [delete_time_log, hsp, hsd, hss, hp, hl, iterElems, hfl, hkeep, bind, Except.bind]
    rw [if_neg (by simp), dset_eq_of_dlookup p "time_logs" _ hl,
      dset_eq_of_dlookup d.projects project p hp]

/-- A project with two entries matching `(2024-01-01, 10:00:00)` and one
that does not. -/
def c10doc : Doc := ⟨[("p", [("time_logs", .jarr [
  .jobj [("date", .jstr "2024-01-01"), ("start_time", .jstr "10:00:00"), ("duration", .jnum 1)],
  .jobj [("date", .jstr "2024-01-01"), ("start_time", .jstr "10:00:00"), ("duration", .jnum 2)],
  .jobj [("date", .jstr "2024-01-02"), ("start_time", .jstr "09:00:00"),
    ("duration", .jnum 3)]])])], [DEFAULT_GROUP]⟩

/-- c10 amended, witness: both matching entries are removed at once. -/
theorem c10_amended_witness :
    delete_time_log c10doc "p" "2024-01-01" "10:00:00" =
      .ok (⟨dset c10doc.projects "p"
          (dset [("time_logs", .jarr [
            .jobj [("date", .jstr "2024-01-01"), ("start_time", .jstr "10:00:00"),
              ("duration", .jnum 1)],
            .jobj [("date", .jstr "2024-01-01"), ("start_time", .jstr "10:00:00"),
              ("duration", .jnum 2)],
            .jobj [("date", .jstr "2024-01-02"), ("start_time", .jstr "09:00:00"),
              ("duration", .jnum 3)]] )] "time_logs"
            (.jarr ([
              .jobj [("date", .jstr "2024-01-01"), ("start_time", .jstr "10:00:00"),
                ("duration", .jnum 1)],
              .jobj [("date", .jstr "2024-01-01"), ("start_time", .jstr "10:00:00"),
                ("duration", .jnum 2)],
              .jobj [("date", .jstr "2024-01-02"), ("start_time", .jstr "09:00:00"),
                ("duration", .jnum 3)]].filter
                  (fun l => !matchB "2024-01-01" "10:00:00" l)))),
        c10doc.groups⟩, true, .okResp) :=
  (c10_amended c10doc "p" "2024-01-01" "10:00:00" _ _
    (by decide) (by decide) (by decide) rfl rfl rfl).1 rfl

/-- c6: deleting an existing non-default group removes exactly that group
from `groups`, reassigns every project whose group resolved to it to the
default group (leaving other projects untouched and deleting none), and
saves; deleting the default group fails with the validation message and
leaves the document unchanged and unsaved. -/
theorem c6_delete_group (d : Doc) (name : String)
    (hstrip : pyStrip name = name) (hne : name ≠ "") (hnd : name ≠ DEFAULT_GROUP)
    (hmem : name ∈ d.groups) :
    ((delete_group d name).2.1 = true) ∧
    ((delete_group d name).1.groups = d.groups.filter (fun g => g ≠ name)) ∧
    name ∉ (delete_group d name).1.groups ∧
    (∀ g ∈ d.groups, g ≠ name → g ∈ (delete_group d name).1.groups) ∧
    dkeys (delete_group d name).1.projects = dkeys d.projects ∧
    (∀ pr ∈ d.projects,
      (groupIs pr.2 name = true →
        (pr.1, dset pr.2 "group" (.jstr DEFAULT_GROUP)) ∈ (delete_group d name).1.projects) ∧
      (groupIs pr.2 name = false → pr ∈ (delete_group d name).1.projects)) ∧
    delete_group d DEFAULT_GROUP = (d, false, Flash.error "You cannot delete Ungrouped") := by
  have hd : delete_group d name =
      (⟨d.projects.map (fun pr =>
          if groupIs pr.2 name then (pr.1, dset pr.2 "group" (.jstr DEFAULT_GROUP)) else pr),
        d.groups.filter (fun g => g ≠ name)⟩, true,
        .success ("Deleted group \"" ++ name ++ "\" (projects moved to Ungrouped)")) := by
    simp only [delete_group, hstrip, if_neg hne, if_neg hnd]
    rw [if_neg (not_not_intro hmem)]
  refine ⟨by rw [hd], by rw [hd], ?_, ?_, ?_, ?_, ?_⟩
  · rw [hd]
    simp
  · intro g hg hgne
    rw [hd]
    simp only [List.mem_filter, decide_eq_true_eq]
    exact ⟨hg, hgne⟩
  · rw [hd]
    simp only [dkeys, List.map_map]
    apply List.map_congr_left
    intro pr _
    by_cases hgi : groupIs pr.2 name = true <;> simp [hgi]
  · intro pr hpr
    constructor
    · intro hgi
      rw [hd]
      simp only [List.mem_map]
      exact ⟨pr, hpr, by simp [hgi]⟩
    · intro hgi
      rw [hd]
      simp only [List.mem_map]
      exact ⟨pr, hpr, by simp [hgi]⟩
  · have h1 : pyStrip "Ungrouped" = "Ungrouped" := by decide
    simp [delete_group, DEFAULT_GROUP, h1]

/-- Document for the c6 witness: two projects, one in the doomed group. -/
def c6doc : Doc := ⟨[("x", [("group", .jstr "G")]), ("y", [("group", .jstr "H")])],
  [DEFAULT_GROUP, "G", "H"]⟩

/-- c6 witness at `c6doc` deleting group `G`. -/
theorem c6_delete_group_witness :
    "G" ∉ (delete_group c6doc "G").1.groups ∧
    (("x", dset [("group", JVal.jstr "G")] "group" (.jstr DEFAULT_GROUP))
      ∈ (delete_group c6doc "G").1.projects) ∧
    (("y", ([("group", JVal.jstr "H")] : Obj)) ∈ (delete_group c6doc "G").1.projects) ∧
    dkeys (delete_group c6doc "G").1.projects = dkeys c6doc.projects ∧
    delete_group c6doc DEFAULT_GROUP = (c6doc, false, Flash.error "You cannot delete Ungrouped") := by
  have h := c6_delete_group c6doc "G" (by decide) (by decide) (by decide) (by decide)
  refine ⟨h.2.2.1, ?_, ?_, h.2.2.2.2.1, h.2.2.2.2.2.2⟩
  · exact (h.2.2.2.2.2.1 ("x", [("group", .jstr "G")]) (by simp [c6doc])).1 rfl
  · exact (h.2.2.2.2.2.1 ("y", [("group", .jstr "H")]) (by simp [c6doc])).2 rfl

-- ── The groups invariant (claim C5) ─────────────────────────────────────

/-- The document invariant: `groups` contains the default group (hence is
non-empty), and every project's `group` field is a string naming a member
of `groups`. -/
def InvD (d : Doc) : Prop :=
  DEFAULT_GROUP ∈ d.groups ∧
  ∀ pr ∈ d.projects, ∃ s, dlookup pr.2 "group" = some (.jstr s) ∧ s ∈ d.groups

theorem mem_of_dlookup {α : Type} (l : List (String × α)) (k : String) (v : α)
    (h : dlookup l k = some v) : (k, v) ∈ l := by
  induction l with
  | nil => simp [dlookup] at h
  | cons hd tl ih =>
      obtain ⟨k', v'⟩ := hd
      by_cases hk : k' = k
      · subst hk
        simp [dlookup] at h
        subst h
        exact List.mem_cons_self _ _
      · simp only [dlookup, if_neg hk] at h
        exact List.mem_cons_of_mem _ (ih h)

theorem mem_dset {α : Type} (l : List (String × α)) (k : String) (v : α)
    (pr : String × α) (h : pr ∈ dset l k v) : pr = (k, v) ∨ pr ∈ l := by
  induction l with
  | nil => simp [dset] at h; exact Or.inl h
  | cons hd tl ih =>
      by_cases hk : hd.1 = k
      · simp only [dset, if_pos hk, List.mem_cons] at h
        rcases h with h | h
        · exact Or.inl h
        · exact Or.inr (List.mem_cons_of_mem _ h)
      · simp only [dset, if_neg hk, List.mem_cons] at h
        rcases h with h | h
        · exact Or.inr (h ▸ List.mem_cons_self _ _)
        · rcases ih h with h | h
          · exact Or.inl h
          · exact Or.inr (List.mem_cons_of_mem _ h)

theorem mem_dremove {α : Type} (l : List (String × α)) (k : String)
    (pr : String × α) (h : pr ∈ dremove l k) : pr ∈ l := by
  induction l with
  | nil => simp [dremove] at h
  | cons hd tl ih =>
      by_cases hk : hd.1 = k
      · simp only [dremove, if_pos hk] at h
        exact List.mem_cons_of_mem _ h
      · simp only [dremove, if_neg hk, List.mem_cons] at h
        rcases h with h | h
        · exact h ▸ List.mem_cons_self _ _
        · exact List.mem_cons_of_mem _ (ih h)

/-- Resolution of `groupIs` through a project whose `group` field is the
string `s`: truthiness replaces the empty string by the default group. -/
theorem groupIs_of_lookup (p : Obj) (s x : String)
    (hs : dlookup p "group" = some (.jstr s)) :
    groupIs p x = decide ((if s = "" then DEFAULT_GROUP else s) = x) := by
  unfold groupIs objGet
  rw [hs]
  by_cases hse : s = "" <;> simp [hse, pyTruthy, jvalEqStr]

/-- Replacing one project's dict by one with the same `group` binding
preserves the invariant. -/
theorem invd_set_project (d : Doc) (k : String) (p p' : Obj)
    (h : InvD d) (hp : dlookup d.projects k = some p)
    (hgrp : dlookup p' "group" = dlookup p "group") :
    InvD ⟨dset d.projects k p', d.groups⟩ := by
  refine ⟨h.1, ?_⟩
  intro pr hpr
  rcases mem_dset _ _ _ _ hpr with he | hm
  · obtain ⟨s, hs, smem⟩ := h.2 (k, p) (mem_of_dlookup _ _ _ hp)
    subst he
    exact ⟨s, hgrp.trans hs, smem⟩
  · exact h.2 pr hm

theorem invd_add_group (d : Doc) (g : String) (h : InvD d) : InvD (add_group d g).1 := by
  rcases hag : add_group d g with ⟨d2, b, fl⟩
  unfold add_group at hag
  simp only [] at hag
  split at hag
  · cases hag; exact h
  · split at hag
    · cases hag; exact h
    · cases hag
      refine ⟨List.mem_append_left _ h.1, ?_⟩
      intro pr hpr
      obtain ⟨s, hs, smem⟩ := h.2 pr hpr
      exact ⟨s, hs, List.mem_append_left _ smem⟩

theorem invd_rename_group (d : Doc) (o n : String) (h : InvD d) :
    InvD (rename_group d o n).1 := by
  rcases hag : rename_group d o n with ⟨d2, b, fl⟩
  unfold rename_group at hag
  simp only [] at hag
  split at hag
  · cases hag; exact h
  · split at hag
    · cases hag; exact h
    · split at hag
      · cases hag; exact h
      · split at hag
        · cases hag; exact h
        · rename_i hne hnd hmem hnew
          cases hag
          rw [not_or] at hne
          rw [not_not] at hmem
          refine ⟨?_, ?_⟩
          · apply List.mem_map.mpr
            refine ⟨DEFAULT_GROUP, h.1, ?_⟩
            rw [if_neg (fun he => hnd he.symm)]
          · intro pr hpr
            obtain ⟨pr0, hpr0, hfe⟩ := List.mem_map.mp hpr
            obtain ⟨s, hs, smem⟩ := h.2 pr0 hpr0
            by_cases hgi : groupIs pr0.2 (pyStrip o) = true
            · rw [if_pos hgi] at hfe
              refine ⟨pyStrip n, ?_, ?_⟩
              · rw [← hfe]
                exact dlookup_dset_self _ _ _
              · exact List.mem_map.mpr ⟨pyStrip o, hmem, by rw [if_pos rfl]⟩
            · rw [if_neg hgi] at hfe
              subst hfe
              have hso : s ≠ pyStrip o := by
                rw [groupIs_of_lookup pr0.2 s _ hs] at hgi
                by_cases hse : s = ""
                · subst hse
                  exact fun he => hne.1 he.symm
                · simp only [hse, if_false, decide_eq_true_eq] at hgi
                  exact hgi
              refine ⟨s, hs, ?_⟩
              apply List.mem_map.mpr
              exact ⟨s, smem, by rw [if_neg hso]⟩

theorem invd_delete_group (d : Doc) (g : String) (h : InvD d) :
    InvD (delete_group d g).1 := by
  rcases hag : delete_group d g with ⟨d2, b, fl⟩
  unfold delete_group at hag
  simp only [] at hag
  split at hag
  · cases hag; exact h
  · split at hag
    · cases hag; exact h
    · split at hag
      · cases hag; exact h
      · rename_i hne hnd hmem
        cases hag
        rw [not_not] at hmem
        refine ⟨?_, ?_⟩
        · apply List.mem_filter.mpr
          refine ⟨h.1, by simpa using fun he => hnd he.symm⟩
        · intro pr hpr
          obtain ⟨pr0, hpr0, hfe⟩ := List.mem_map.mp hpr
          obtain ⟨s, hs, smem⟩ := h.2 pr0 hpr0
          by_cases hgi : groupIs pr0.2 (pyStrip g) = true
          · rw [if_pos hgi] at hfe
            refine ⟨DEFAULT_GROUP, ?_, ?_⟩
            · rw [← hfe]
              exact dlookup_dset_self _ _ _
            · exact List.mem_filter.mpr ⟨h.1, by simpa using fun he => hnd he.symm⟩
          · rw [if_neg hgi] at hfe
            subst hfe
            have hso : s ≠ pyStrip g := by
              rw [groupIs_of_lookup pr0.2 s _ hs] at hgi
              by_cases hse : s = ""
              · subst hse
                exact fun he => hne he.symm
              · simp only [hse, if_false, decide_eq_true_eq] at hgi
                exact hgi
            exact ⟨s, hs, List.mem_filter.mpr ⟨smem, by simpa using hso⟩⟩

theorem invd_add_project (d : Doc) (n t g : String) (h : InvD d) :
    InvD (add_project d n t g).1 := by
  rcases hag : add_project d n t g with ⟨d2, b, fl⟩
  unfold add_project at hag
  simp only [] at hag
  split at hag
  · cases hag; exact h
  · split at hag
    · cases hag; exact h
    · cases hag
      constructor
      · split
        · exact h.1
        · exact List.mem_append_left _ h.1
      · intro pr hpr
        rcases List.mem_append.mp hpr with hm | hm
        · obtain ⟨s, hs, smem⟩ := h.2 pr hm
          refine ⟨s, hs, ?_⟩
          split
          · exact smem
          · exact List.mem_append_left _ smem
        · simp only [List.mem_singleton] at hm
          subst hm
          refine ⟨groupArg g, by simp [dlookup], ?_⟩
          split
          · assumption
          · simp

theorem invd_update_project (d : Doc) (pn t g : String) (h : InvD d) :
    InvD (update_project d pn t g).1 := by
  rcases hag : update_project d pn t g with ⟨d2, b, fl⟩
  unfold update_project at hag
  simp only [] at hag
  split at hag
  · cases hag; exact h
  · rename_i p hp
    cases hag
    constructor
    · split
      · exact h.1
      · exact List.mem_append_left _ h.1
    · intro pr hpr
      rcases mem_dset _ _ _ _ hpr with he | hm
      · subst he
        refine ⟨groupArg g, dlookup_dset_self _ _ _, ?_⟩
        split
        · assumption
        · simp
      · obtain ⟨s, hs, smem⟩ := h.2 pr hm
        refine ⟨s, hs, ?_⟩
        split
        · exact smem
        · exact List.mem_append_left _ smem

theorem invd_delete_project (d : Doc) (pn : String) (h : InvD d) :
    InvD (delete_project d pn).1 := by
  rcases hag : delete_project d pn with ⟨d2, b, fl⟩
  unfold delete_project at hag
  split at hag
  · cases hag; exact h
  · cases hag
    exact ⟨h.1, fun pr hpr => h.2 pr (mem_dremove _ _ _ hpr)⟩

theorem invd_start_time_log (d : Doc) (pn now today : String) (h : InvD d) :
    InvD (start_time_log d pn now today).1 := by
  rcases hag : start_time_log d pn now today with ⟨d2, b, fl⟩
  unfold start_time_log at hag
  simp only [] at hag
  split at hag
  · cases hag; exact h
  · rename_i p hp
    split at hag
    · cases hag; exact h
    · cases hag
      exact invd_set_project d (pyStrip pn) p _ h hp
        (dlookup_dset_ne _ _ _ _ (by decide))

theorem invd_add_time_log (d : Doc) (pn : String) (e : JVal) (h : InvD d) :
    InvD (add_time_log d pn e).1 := by
  rcases hag : add_time_log d pn e with ⟨d2, b, fl⟩
  unfold add_time_log at hag
  simp only [] at hag
  split at hag
  · cases hag; exact h
  · rename_i p hp
    cases hag
    exact invd_set_project d pn p _ h hp (dlookup_dset_ne _ _ _ _ (by decide))

theorem invd_end_time_log (d : Doc) (pn : String) (now : PyDateTime) (today : String)
    (d' : Doc) (b : Bool) (r : EndResp) (h : InvD d)
    (he : end_time_log d pn now today = .ok (d', b, r)) : InvD d' := by
  unfold end_time_log at he
  simp only [] at he
  split at he
  · cases he; exact h
  · rename_i p hp
    split at he
    · cases he; exact h
    · rename_i cs hcs
      simp only [bind, Except.bind] at he
      split at he
      · split at he
        · rename_i stv hstv
          split at he
          · rename_i stStr hstr
            split at he
            · rename_i st hparse
              split at he
              · rename_i xs hxs
                cases he
                refine invd_set_project d (pyStrip pn) p _ h hp ?_
                rw [dlookup_dremove_ne _ _ _ (by decide),
                  dlookup_dset_ne _ _ _ _ (by decide)]
              · exact Except.noConfusion he
              · rename_i hnone
                cases he
                refine invd_set_project d (pyStrip pn) p _ h hp ?_
                rw [dlookup_dremove_ne _ _ _ (by decide),
                  dlookup_dset_ne _ _ _ _ (by decide)]
            · exact Except.noConfusion he
          · exact Except.noConfusion he
        · exact Except.noConfusion he
      · exact Except.noConfusion he

theorem invd_delete_time_log (d : Doc) (pn dt st : String)
    (d' : Doc) (b : Bool) (r : JsonResp) (h : InvD d)
    (he : delete_time_log d pn dt st = .ok (d', b, r)) : InvD d' := by
  unfold delete_time_log at he
  simp only [] at he
  split at he
  · cases he; exact h
  · rename_i p hp
    split at he
    · cases he; exact h
    · rename_i tlv htlv
      split at he
      · exact Except.noConfusion he
      · rename_i logs hlogs
        simp only [bind, Except.bind] at he
        split at he
        · exact Except.noConfusion he
        · rename_i keep hkeep
          have hset : InvD ⟨dset d.projects (pyStrip pn)
              (dset p "time_logs" (.jarr keep)), d.groups⟩ :=
            invd_set_project d (pyStrip pn) p _ h hp
              (dlookup_dset_ne _ _ _ _ (by decide))
          split at he
          · cases he; exact hset
          · cases he; exact hset

theorem normProject_fixed_group (p : JVal) (g : String)
    (h : normProject p = (p, some g)) :
    ∃ kvs, p = .jobj kvs ∧ dlookup kvs "group" = some (.jstr g) := by
  cases p with
  | jobj kvs =>
      obtain ⟨s, hl, hs⟩ := ensureGroup_lookup (ensureList (ensureList kvs "tags") "time_logs")
      have h1 : normProject (.jobj kvs) =
          (.jobj (dset (ensureGroup (ensureList (ensureList kvs "tags") "time_logs")) "group"
            (.jstr (pyStrip s))), some (pyStrip s)) := by
        simp only [normProject, hl]
      rw [h1] at h
      have hfst := congrArg Prod.fst h
      have hsnd := congrArg Prod.snd h
      simp only at hfst hsnd
      injection hfst with hkvs
      injection hsnd with hg
      refine ⟨kvs, rfl, ?_⟩
      rw [← hkvs, ← hg]
      exact dlookup_dset_self _ _ _
  | jnull => exact absurd (congrArg Prod.snd h) (by simp [normProject])
  | jbool b => exact absurd (congrArg Prod.snd h) (by simp [normProject])
  | jnum q => exact absurd (congrArg Prod.snd h) (by simp [normProject])
  | jstr s => exact absurd (congrArg Prod.snd h) (by simp [normProject])
  | jarr xs => exact absurd (congrArg Prod.snd h) (by simp [normProject])

theorem optMap_jstr (gs : List String) :
    optMap (fun g =>
      match g with
      | .jstr s => some s
      | _ => none) (gs.map JVal.jstr) = some gs := by
  induction gs with
  | nil => rfl
  | cons g rest ih => simp [optMap, ih, bind, Option.bind]

theorem mapM_projs (ps : List (String × JVal)) (gs : List String)
    (h : ∀ pr ∈ ps, ∃ g, normProject pr.2 = (pr.2, some g) ∧ g ∈ gs) :
    ∃ ps' : List (String × Obj),
      optMap (fun pr =>
        match pr.2 with
        | .jobj o => some (pr.1, o)
        | _ => none) ps = some ps' ∧
      ∀ pr ∈ ps', ∃ s, dlookup pr.2 "group" = some (.jstr s) ∧ s ∈ gs := by
  induction ps with
  | nil => exact ⟨[], rfl, by simp⟩
  | cons pr rest ih =>
      obtain ⟨g, hg, hgm⟩ := h pr (List.mem_cons_self _ _)
      obtain ⟨kvs, hkvs, hlook⟩ := normProject_fixed_group pr.2 g hg
      obtain ⟨ps', hmap, hps'⟩ := ih (fun x hx => h x (List.mem_cons_of_mem _ hx))
      refine ⟨(pr.1, kvs) :: ps', ?_, ?_⟩
      · simp [optMap, hkvs, hmap, bind, Option.bind]
      · intro x hx
        rcases List.mem_cons.mp hx with hx | hx
        · subst hx
          exact ⟨g, hlook, hgm⟩
        · exact hps' x hx

theorem docOf_load_invariant (D : JVal) :
    ∃ dd : Doc, docOf? (load_norm D) = some dd ∧ InvD dd := by
  obtain ⟨ps, gs, rest, htail, heq, hnodup, hclean, hdef, hfix⟩ := load_norm_struct D
  obtain ⟨ps', hmapm, hps'⟩ := mapM_projs ps gs hfix
  refine ⟨⟨ps', gs⟩, ?_, hdef, fun pr hpr => hps' pr hpr⟩
  rw [heq]
  simp only [docOf?, dlookup]
  rw [if_neg (by decide : ¬("projects" : String) = "groups")] at *
  simp [hmapm, optMap_jstr, bind, Option.bind]

/-- c5: after load-time normalization the document reads as a `Doc`
satisfying the invariant (the default group "Ungrouped" is in `groups`,
hence `groups` is non-empty, and every project's `group` names a member of
`groups`), and every mutating operation — add/update/delete project,
add/rename/delete group, start/stop session, add/delete log — preserves
the invariant (for the fallible stop and delete-log operations, on every
non-raising outcome). -/
theorem c5_invariant_preserved :
    (∀ D : JVal, ∃ dd : Doc, docOf? (load_norm D) = some dd ∧ InvD dd) ∧
    (∀ d n t g, InvD d → InvD (add_project d n t g).1) ∧
    (∀ d p t g, InvD d → InvD (update_project d p t g).1) ∧
    (∀ d p, InvD d → InvD (delete_project d p).1) ∧
    (∀ d g, InvD d → InvD (add_group d g).1) ∧
    (∀ d o n, InvD d → InvD (rename_group d o n).1) ∧
    (∀ d g, InvD d → InvD (delete_group d g).1) ∧
    (∀ d p now today, InvD d → InvD (start_time_log d p now today).1) ∧
    (∀ d p now today d' b r, InvD d →
      end_time_log d p now today = .ok (d', b, r) → InvD d') ∧
    (∀ d p e, InvD d → InvD (add_time_log d p e).1) ∧
    (∀ d p dt st d' b r, InvD d →
      delete_time_log d p dt st = .ok (d', b, r) → InvD d') :=
  ⟨docOf_load_invariant,
   invd_add_project,
   invd_update_project,
   invd_delete_project,
   invd_add_group,
   invd_rename_group,
   invd_delete_group,
   invd_start_time_log,
   invd_end_time_log,
   invd_add_time_log,
   invd_delete_time_log⟩

/-- A tiny invariant-satisfying document for the c5 witness. -/
def c5doc : Doc := ⟨[("a", [("group", .jstr DEFAULT_GROUP)])], [DEFAULT_GROUP]⟩

theorem c5doc_invd : InvD c5doc := by
  refine ⟨by decide, ?_⟩
  intro pr hpr
  simp only [c5doc, List.mem_singleton] at hpr
  subst hpr
  exact ⟨DEFAULT_GROUP, rfl, by decide⟩

/-- c5 witness: the load invariant at a concrete raw value, and
preservation at concrete operations on `c5doc`. -/
theorem c5_invariant_witness :
    (∃ dd : Doc, docOf? (load_norm .jnull) = some dd ∧ InvD dd) ∧
    InvD (add_project c5doc "b" "x,y" "G").1 ∧
    InvD (delete_group c5doc "G").1 ∧
    InvD (start_time_log c5doc "a" "2024-01-01T10:00:00" "2024-01-01").1 :=
  ⟨c5_invariant_preserved.1 .jnull,
   c5_invariant_preserved.2.1 c5doc "b" "x,y" "G" c5doc_invd,
   c5_invariant_preserved.2.2.2.2.2.2.1 c5doc "G" c5doc_invd,
   c5_invariant_preserved.2.2.2.2.2.2.2.1 c5doc "a" "2024-01-01T10:00:00" "2024-01-01"
     c5doc_invd⟩

-- ── Recommended daily pace (spec §4.2; legacy variant not under src/) ────

/-- Modelled from the spec: the recommended-daily-pace computation belongs
to a legacy repository variant that is not under src/ (§4.2).  Inputs: the
goal and accumulated hours, the signed day offset `(deadline − today).days`
supplied by the calendar collaborator, and the workdays-per-week count.  A
deadline strictly before today leaves zero workdays; a count of 0 or 7
means every remaining day is a workday; otherwise
`workdays = full_weeks * count + min(rem, count)`;
`recommended = round(remaining / workdays, 1)` only when `workdays > 0`
(explicit absence otherwise). -/
def recommended_pace (goal accumulated : ℚ) (daysUntilDeadline : ℤ)
    (workdays_count : ℕ) : Option ℚ :=
  let remaining_hours := max (goal - accumulated) 0
  let workdays : ℤ :=
    if daysUntilDeadline < 0 then 0
    else
      let total_days := daysUntilDeadline + 1
      if workdays_count = 0 ∨ workdays_count = 7 then total_days
      else total_days / 7 * workdays_count + min (total_days % 7) workdays_count
  if 0 < workdays then some (round1 (remaining_hours / workdays)) else none

/-- c9: with a workdays count strictly between 0 and 7 and a deadline not
before today, the pace computation uses the inclusive day count
`total_days = delta + 1`, the workday estimate
`total_days div 7 * count + min(total_days mod 7, count)`, and returns
`round(remaining / workdays, 1)` whenever that estimate is positive. -/
theorem c9_recommended_pace (goal accumulated : ℚ) (delta : ℤ) (wc : ℕ)
    (h0 : 0 < wc) (h7 : wc < 7) (hd : 0 ≤ delta)
    (hw : 0 < (delta + 1) / 7 * wc + min ((delta + 1) % 7) wc) :
    recommended_pace goal accumulated delta wc =
      some (round1 (max (goal - accumulated) 0 /
        (((delta + 1) / 7 * wc + min ((delta + 1) % 7) wc : ℤ) : ℚ))) := by
  unfold recommended_pace
  have h1 : ¬(delta < 0) := not_lt.mpr hd
  have h2 : ¬(wc = 0 ∨ wc = 7) := by omega
  rw [if_neg h1, if_neg h2, if_pos hw]

/-- c9 witness: goal 20h, accumulated 5h, deadline today+6 days, 5
workdays per week gives 7 total days, 5 workdays and 3.0 h/day. -/
theorem c9_recommended_pace_witness :
    recommended_pace 20 5 6 5 = some 3 := by
  rw [c9_recommended_pace 20 5 6 5 (by decide) (by decide) (by decide) (by decide)]
  norm_num [round1, pyRoundInt]

-- ── Report generator (main.py lines 133-234) ─────────────────────────────

/-- The optional report filters (route lines 566-572: each is `None` when
absent or submitted empty). -/
structure Filters where
  group : Option String
  project : Option String
  tag : Option String
  date_from : Option String
  date_to : Option String

/-- `filters and filters.get(k)` truthiness: no filters dict, a missing
key, or an empty string all mean "inactive". -/
def fval (f? : Option Filters) (sel : Filters → Option String) : Option String :=
  match f? with
  | none => none
  | some f =>
      match sel f with
      | none => none
      | some s => if s = "" then none else some s

/-- Python float repr restricted to what the report prints: every printed
number is a 2-decimal rounding, so at most two fractional digits, with the
trailing zero collapsed as repr does ("1.5", "3.0", "0.05"). -/
def fmtQ (q : ℚ) : String :=
  let sgn := if q < 0 then "-" else ""
  let a := |q|
  let ip := (⌊a⌋).toNat
  let r100 := (⌊(a - ⌊a⌋) * 100⌋).toNat
  let frac :=
    if r100 = 0 then "0"
    else if r100 % 10 = 0 then toString (r100 / 10)
    else if r100 < 10 then "0" ++ toString r100
    else toString r100
  sgn ++ toString ip ++ "." ++ frac

/-- `str(v)` as used by the report's f-strings on log fields (structured
values only need a placeholder rendering; no claim inspects them). -/
def jvalDisplay : JVal → String
  | .jstr s => s
  | .jnum q => fmtQ q
  | .jbool b => if b then "True" else "False"
  | .jnull => "None"
  | .jarr _ => "<list>"
  | .jobj _ => "<dict>"

/-- `(p.get("group") or DEFAULT_GROUP).strip() or DEFAULT_GROUP` (line
142): `.strip()` on a truthy non-string raises `AttributeError`. -/
def resolvedGroup (p : Obj) : Except PyErr String :=
  let gv := objGet p "group" .jnull
  let gv' := if pyTruthy gv then gv else .jstr DEFAULT_GROUP
  match gv' with
  | .jstr s =>
      let s' := pyStrip s
      .ok (if s' = "" then DEFAULT_GROUP else s')
  | _ => .error .attributeError

/-- Append a project to its (existing) group bucket (line 145). -/
def appendBucket (buckets : List (String × List (String × Obj))) (grp : String)
    (pr : String × Obj) : List (String × List (String × Obj)) :=
  buckets.map (fun b => if b.1 = grp then (b.1, b.2 ++ [pr]) else b)

/-- The bucket-filling loop of lines 139-145. -/
def bucketsOf : List (String × Obj) → List (String × List (String × Obj)) →
    Except PyErr (List (String × List (String × Obj)))
  | [], buckets => .ok buckets
  | pr :: rest, buckets => do
      let grp ← resolvedGroup pr.2
      let buckets1 := if (dlookup buckets grp).isSome then buckets
        else buckets ++ [(grp, [])]
      bucketsOf rest (appendBucket buckets1 grp pr)

/-- Stable insertion into a list sorted by lower-cased project name
(model of the stable `list.sort(key=lambda x: x[0].lower())` of line 149). -/
def insertItem (x : String × Obj) : List (String × Obj) → List (String × Obj)
  | [] => [x]
  | y :: ys => if x.1.toLower < y.1.toLower then x :: y :: ys else y :: insertItem x ys

/-- Stable sort by lower-cased name. -/
def sortItems (items : List (String × Obj)) : List (String × Obj) :=
  items.foldl (fun acc x => insertItem x acc) []

/-- `group_projects` (lines 133-151). -/
def group_projects (projects : List (String × Obj)) (groups : List String) :
    Except PyErr (List (String × List (String × Obj))) := do
  let buckets ← bucketsOf projects (groups.map (fun g => (g, ([] : List (String × Obj)))))
  .ok (buckets.map (fun b => (b.1, sortItems b.2)))

/-- `", ".join(project.get("tags", []))` (line 214): joins a list of
strings (a non-string element raises), a string joins its characters, a
dict its keys. -/
def joinTags : JVal → Except PyErr String
  | .jarr xs =>
      let rec strs : List JVal → Except PyErr (List String)
        | [] => .ok []
        | .jstr s :: rest => do
            let r ← strs rest
            .ok (s :: r)
        | _ :: _ => .error .typeError
      do
        let ss ← strs xs
        .ok (String.intercalate ", " ss)
  | .jstr s => .ok (String.intercalate ", " (s.data.map (fun c => String.mk [c])))
  | .jobj kvs => .ok (String.intercalate ", " (dkeys kvs))
  | _ => .error .typeError

/-- Whether the first character list occurs at the start of the second. -/
def matchesAt : List Char → List Char → Bool
  | [], _ => true
  | _ :: _, [] => false
  | a :: as, b :: bs => a = b && matchesAt as bs

/-- Contiguous-substring test. -/
def hasSub (n : List Char) : List Char → Bool
  | [] => n.isEmpty
  | c :: cs => matchesAt n (c :: cs) || hasSub n cs

/-- `t in v` for the tag filter (line 200): list membership by equality,
substring test for strings, key membership for dicts, `TypeError`
otherwise. -/
def pyContainsStr (v : JVal) (t : String) : Except PyErr Bool :=
  match v with
  | .jarr xs => .ok (xs.any (fun x => jvalEqStr x t))
  | .jstr s => .ok (hasSub t.data s.data)
  | .jobj kvs => .ok ((dkeys kvs).any (fun k => k = t))
  | _ => .error .typeError

/-- The project-filter skip of line 191, as a Boolean. -/
def projSkip (f? : Option Filters) (pname : String) : Bool :=
  match fval f? Filters.project with
  | some pf => pf ≠ pname
  | none => false

/-- The group-filter skip of line 182, as a Boolean. -/
def groupSkip (f? : Option Filters) (g : String) : Bool :=
  match fval f? Filters.group with
  | some gf => gf ≠ g
  | none => false

/-- The date-range comprehensions of lines 202-205: each entry must be a
dict (`log.get`), and its date a string to be comparable with the filter
string (Python raises `TypeError` comparing `str` with other types). -/
def dateFilter : List JVal → (String → Bool) → Except PyErr (List JVal)
  | [], _ => .ok []
  | l :: ls, pred =>
      match l with
      | .jobj kvs =>
          match objGet kvs "date" (.jstr "") with
          | .jstr s => do
              let r ← dateFilter ls pred
              if pred s then .ok (.jobj kvs :: r) else .ok r
          | _ => .error .typeError
      | _ => .error .attributeError

/-- Sort key of line 216 (dates and start times must be strings to be
comparable; a non-dict entry raises). -/
def sortKey (log : JVal) : Except PyErr (String × String) :=
  match log with
  | .jobj kvs =>
      match objGet kvs "date" (.jstr ""), objGet kvs "start_time" (.jstr "") with
      | .jstr d, .jstr s => .ok (d, s)
      | _, _ => .error .typeError
  | _ => .error .attributeError

/-- Strict lexicographic order on `(date, start_time)` keys. -/
def keyLT (a b : String × String) : Bool :=
  a.1 < b.1 || (a.1 = b.1 && a.2 < b.2)

/-- Stable insertion by key. -/
def insertKeyed (x : (String × String) × JVal) :
    List ((String × String) × JVal) → List ((String × String) × JVal)
  | [] => [x]
  | y :: ys => if keyLT x.1 y.1 then x :: y :: ys else y :: insertKeyed x ys

/-- Compute the sort keys of all entries. -/
def keyLogs : List JVal → Except PyErr (List ((String × String) × JVal))
  | [] => .ok []
  | l :: ls => do
      let k ← sortKey l
      let r ← keyLogs ls
      .ok ((k, l) :: r)

/-- `sorted(filtered_logs, key=...)` (line 216), as a stable insertion
sort. -/
def sortLogs (logs : List JVal) : Except PyErr (List JVal) := do
  let keyed ← keyLogs logs
  .ok ((keyed.foldl (fun acc x => insertKeyed x acc) []).map Prod.snd)

/-- One log line (lines 217-225): returns the rendered line and the
unrounded duration added to the three running totals. -/
def renderLog (log : JVal) : Except PyErr (String × ℚ) :=
  match log with
  | .jobj kvs =>
      let d := safe_float (objGet kvs "duration" (.jnum 0)) 0
      .ok ("- **" ++ jvalDisplay (objGet kvs "date" (.jstr "—")) ++ "**: "
        ++ jvalDisplay (objGet kvs "start_time" (.jstr "—")) ++ " - "
        ++ jvalDisplay (objGet kvs "end_time" (.jstr "—")) ++ " ("
        ++ fmtQ (round2 d) ++ " hours)\n", d)
  | _ => .error .attributeError

/-- Render all (sorted) log lines, returning text and total duration. -/
def renderLogs : List JVal → Except PyErr (String × ℚ)
  | [] => .ok ("", 0)
  | l :: ls => do
      let r ← renderLog l
      let rest ← renderLogs ls
      .ok (r.1 ++ rest.1, r.2 + rest.2)

/-- One project's contribution (lines 189-227): `none` when the project is
filtered out or has no matching logs (no section rendered); otherwise the
section text and the sum of the rendered unrounded durations. -/
def renderProject (f? : Option Filters) (pname : String) (project : Obj) :
    Except PyErr (Option (String × ℚ)) :=
  if projSkip f? pname then .ok none
  else do
    let logs0 ← match iterElems (objGet project "time_logs" (.jarr [])) with
      | some xs => Except.ok xs
      | none => Except.error PyErr.typeError
    if logs0.isEmpty then Except.ok none
    else do
      let logs1 ← match fval f? Filters.tag with
        | some t => do
            let c ← pyContainsStr (objGet project "tags" (.jarr [])) t
            if c then Except.ok logs0 else Except.ok ([] : List JVal)
        | none => Except.ok logs0
      let logs2 ← match fval f? Filters.date_from with
        | some df => dateFilter logs1 (fun s => df ≤ s)
        | none => Except.ok logs1
      let logs3 ← match fval f? Filters.date_to with
        | some dt => dateFilter logs2 (fun s => s ≤ dt)
        | none => Except.ok logs2
      if logs3.isEmpty then Except.ok none
      else do
        let tagsLine ← joinTags (objGet project "tags" (.jarr []))
        let sorted ← sortLogs logs3
        let rendered ← renderLogs sorted
        Except.ok (some ("### " ++ pname ++ "\n\n"
          ++ "**Tags:** " ++ (if tagsLine = "" then "—" else tagsLine) ++ "\n\n"
          ++ rendered.1
          ++ "\n**Project Total: " ++ fmtQ (round2 rendered.2) ++ " hours**\n\n",
          rendered.2))

/-- The project loop of one group: section body, group total, and whether
any project rendered (`group_any`). -/
def renderProjects (f? : Option Filters) : List (String × Obj) →
    Except PyErr (String × ℚ × Bool)
  | [] => .ok ("", 0, false)
  | pr :: rest => do
      let r ← renderProject f? pr.1 pr.2
      let rr ← renderProjects f? rest
      match r with
      | none => Except.ok rr
      | some (ps, pt) => Except.ok (ps ++ rr.1, pt + rr.2.1, true)

/-- One group's contribution (lines 180-231): `none` when no project of
the group rendered (the whole section, header included, is dropped). -/
def renderGroup (f? : Option Filters) (gname : String) (items : List (String × Obj)) :
    Except PyErr (Option String × ℚ) := do
  let r ← renderProjects f? items
  if r.2.2 then
    Except.ok (some ("## Group: " ++ gname ++ "\n\n" ++ r.1
      ++ "**Group Total: " ++ fmtQ (round2 r.2.1) ++ " hours**\n\n"), r.2.1)
  else Except.ok (none, r.2.1)

/-- The group loop: a group not matching an active group filter is skipped
entirely (line 182) and contributes nothing to the overall total. -/
def renderGroups (f? : Option Filters) : List (String × List (String × Obj)) →
    Except PyErr (String × ℚ)
  | [] => .ok ("", 0)
  | b :: rest =>
      if groupSkip f? b.1 then renderGroups f? rest
      else do
        let r ← renderGroup f? b.1 b.2
        let rr ← renderGroups f? rest
        match r.1 with
        | some sec => Except.ok (sec ++ rr.1, r.2 + rr.2)
        | none => Except.ok (rr.1, r.2 + rr.2)

/-- The `**Filters:** ...` line (lines 161-174). -/
def filtersLine (f? : Option Filters) : String :=
  match f? with
  | none => ""
  | some f =>
      let item := fun (label : String) (v : Option String) =>
        match v with
        | some s => if s = "" then ([] : List String) else [label ++ s]
        | none => []
      let used := item "Group: " f.group ++ item "Project: " f.project
        ++ item "Tag: " f.tag ++ item "From: " f.date_from ++ item "To: " f.date_to
      if used.isEmpty then "" else "**Filters:** " ++ String.intercalate ", " used ++ "\n\n"

/-- `generate_markdown_report` (lines 154-234); `today` is
`get_today_persian()`. -/
def generate_markdown_report (d : Doc) (f? : Option Filters) (today : String) :
    Except PyErr String := do
  let grouped ← group_projects d.projects d.groups
  let r ← renderGroups f? grouped
  Except.ok ("# Work Time Report\n\n" ++ "Generated on: " ++ today ++ "\n\n"
    ++ filtersLine f? ++ r.1 ++ "**Overall Total: " ++ fmtQ (round2 r.2) ++ " hours**\n")

theorem renderProject_tag_mismatch (f? : Option Filters) (pname : String) (p : Obj)
    (t : String) (ts xs : List JVal)
    (ht : fval f? Filters.tag = some t)
    (htags : objGet p "tags" (.jarr []) = .jarr ts)
    (hmiss : ts.any (fun x => jvalEqStr x t) = false)
    (hlogs : iterElems (objGet p "time_logs" (.jarr [])) = some xs) :
    renderProject f? pname p = .ok none := by
  unfold renderProject
  by_cases hskip : projSkip f? pname = true
  · rw [if_pos hskip]
  · rw [if_neg hskip]
    simp only [hlogs, bind, Except.bind]
    by_cases hemp : xs.isEmpty
    · simp [hemp]
    · simp only [hemp, Bool.false_eq_true, if_false, ht, htags, pyContainsStr, hmiss,
        bind, Except.bind]
      cases hdf : fval f? Filters.date_from <;> cases hdt : fval f? Filters.date_to <;>
        simp [dateFilter, bind, Except.bind]

theorem renderProjects_all_none (f? : Option Filters) (items : List (String × Obj))
    (h : ∀ pr ∈ items, renderProject f? pr.1 pr.2 = .ok none) :
    renderProjects f? items = .ok ("", 0, false) := by
  induction items with
  | nil => rfl
  | cons pr rest ih =>
      simp only [renderProjects, h pr (List.mem_cons_self _ _), bind, Except.bind]
      rw [ih (fun x hx => h x (List.mem_cons_of_mem _ hx))]

theorem renderGroup_all_none (f? : Option Filters) (g : String)
    (items : List (String × Obj))
    (h : ∀ pr ∈ items, renderProject f? pr.1 pr.2 = .ok none) :
    renderGroup f? g items = .ok (none, 0) := by
  simp [renderGroup, renderProjects_all_none f? items h, bind, Except.bind]

/-- Whether a value is a JSON list. -/
def isArrB : JVal → Bool
  | .jarr _ => true
  | _ => false

/-- Whether a project's `tags` is a list that does NOT contain tag `t`. -/
def tagMismatchB (p : Obj) (t : String) : Bool :=
  match objGet p "tags" (.jarr []) with
  | .jarr ts => !(ts.any (fun x => jvalEqStr x t))
  | _ => false

/-- Replace a tag-mismatched project's (well-formed) `time_logs` by the
empty list; other projects are untouched. -/
def emptyMismatched (t : String) (pr : String × Obj) : String × Obj :=
  if tagMismatchB pr.2 t && isArrB (objGet pr.2 "time_logs" (.jarr [])) then
    (pr.1, dset pr.2 "time_logs" (.jarr []))
  else pr

theorem emptyMismatched_fst (t : String) (pr : String × Obj) :
    (emptyMismatched t pr).1 = pr.1 := by
  unfold emptyMismatched
  split <;> rfl

theorem objGet_dset_ne (p : Obj) (k k' : String) (v dv : JVal) (h : k' ≠ k) :
    objGet (dset p k v) k' dv = objGet p k' dv := by
  unfold objGet
  rw [dlookup_dset_ne _ _ _ _ h]

theorem emptyMismatched_group (t : String) (pr : String × Obj) :
    resolvedGroup (emptyMismatched t pr).2 = resolvedGroup pr.2 := by
  unfold emptyMismatched
  split
  · show resolvedGroup (dset pr.2 "time_logs" (.jarr [])) = _
    unfold resolvedGroup
    rw [objGet_dset_ne _ _ _ _ _ (by decide)]
  · rfl

theorem renderProject_emptyMismatched (f? : Option Filters) (t : String)
    (ht : fval f? Filters.tag = some t) (pr : String × Obj) :
    renderProject f? (emptyMismatched t pr).1 (emptyMismatched t pr).2 =
      renderProject f? pr.1 pr.2 := by
  unfold emptyMismatched
  by_cases hc : (tagMismatchB pr.2 t && isArrB (objGet pr.2 "time_logs" (.jarr []))) = true
  · rw [if_pos hc]
    rw [Bool.and_eq_true] at hc
    obtain ⟨hmis, harr⟩ := hc
    obtain ⟨ts, hts, hany⟩ : ∃ ts, objGet pr.2 "tags" (.jarr []) = .jarr ts ∧
        ts.any (fun x => jvalEqStr x t) = false := by
      unfold tagMismatchB at hmis
      cases htv : objGet pr.2 "tags" (.jarr []) with
      | jarr ts =>
          rw [htv] at hmis
          simp only [Bool.not_eq_true'] at hmis
          exact ⟨ts, rfl, hmis⟩
      | jnull => rw [htv] at hmis; simp at hmis
      | jbool b => rw [htv] at hmis; simp at hmis
      | jnum q => rw [htv] at hmis; simp at hmis
      | jstr s => rw [htv] at hmis; simp at hmis
      | jobj kvs => rw [htv] at hmis; simp at hmis
    obtain ⟨xs, hxs⟩ : ∃ xs, objGet pr.2 "time_logs" (.jarr []) = .jarr xs := by
      unfold isArrB at harr
      cases hlv : objGet pr.2 "time_logs" (.jarr []) with
      | jarr xs => exact ⟨xs, rfl⟩
      | jnull => rw [hlv] at harr; simp at harr
      | jbool b => rw [hlv] at harr; simp at harr
      | jnum q => rw [hlv] at harr; simp at harr
      | jstr s => rw [hlv] at harr; simp at harr
      | jobj kvs => rw [hlv] at harr; simp at harr
    rw [renderProject_tag_mismatch f? pr.1 pr.2 t ts xs ht hts hany (by rw [hxs]; rfl)]
    -- left side: the emptied project has no logs at all
    unfold renderProject
    by_cases hskip : projSkip f? pr.1 = true
    · rw [if_pos hskip]
    · rw [if_neg hskip]
      have : objGet (dset pr.2 "time_logs" (.jarr [])) "time_logs" (.jarr []) =
          .jarr [] := by
        unfold objGet
        rw [dlookup_dset_self]
        rfl
      simp [this, iterElems, bind, Except.bind]
  · rw [if_neg hc]

theorem dlookup_map_snd {α β : Type} (h : α → β) :
    ∀ (l : List (String × α)) (k : String),
      dlookup (l.map (fun b => (b.1, h b.2))) k = (dlookup l k).map h := by
  intro l
  induction l with
  | nil => intro k; rfl
  | cons hd tl ih =>
      intro k
      by_cases hk : hd.1 = k <;> simp [dlookup, hk, ih]

/-- Mapping a payload function over every bucket's items. -/
def mapBuckets (φ : (String × Obj) → String × Obj)
    (bs : List (String × List (String × Obj))) : List (String × List (String × Obj)) :=
  bs.map (fun b => (b.1, b.2.map φ))

theorem appendBucket_map (φ : (String × Obj) → String × Obj)
    (bs : List (String × List (String × Obj))) (grp : String) (pr : String × Obj) :
    appendBucket (mapBuckets φ bs) grp (φ pr) = mapBuckets φ (appendBucket bs grp pr) := by
  unfold appendBucket mapBuckets
  rw [List.map_map, List.map_map]
  apply List.map_congr_left
  intro b _
  by_cases hb : b.1 = grp <;> simp [hb]

theorem bucketsOf_map (φ : (String × Obj) → String × Obj)
    (hgrp : ∀ pr, resolvedGroup (φ pr).2 = resolvedGroup pr.2) :
    ∀ (ps : List (String × Obj)) (buckets : List (String × List (String × Obj))),
      bucketsOf (ps.map φ) (mapBuckets φ buckets) =
        (bucketsOf ps buckets).map (mapBuckets φ) := by
  intro ps
  induction ps with
  | nil => intro buckets; rfl
  | cons pr rest ih =>
      intro buckets
      simp only [List.map_cons, bucketsOf, hgrp pr, bind, Except.bind]
      cases hg : resolvedGroup pr.2 with
      | error e => rfl
      | ok grp =>
          have hiso : (dlookup (mapBuckets φ buckets) grp).isSome =
              (dlookup buckets grp).isSome := by
            unfold mapBuckets
            rw [dlookup_map_snd]
            cases dlookup buckets grp <;> rfl
          simp only [Except.map]
          rw [hiso]
          by_cases hmem : (dlookup buckets grp).isSome = true
          · rw [if_pos hmem, if_pos hmem, appendBucket_map, ih]
            cases bucketsOf rest (appendBucket buckets grp pr) <;> rfl
          · rw [if_neg hmem, if_neg hmem]
            have : mapBuckets φ buckets ++ [(grp, [])] =
                mapBuckets φ (buckets ++ [(grp, [])]) := by
              unfold mapBuckets
              simp
            rw [this, appendBucket_map, ih]
            cases bucketsOf rest (appendBucket (buckets ++ [(grp, [])]) grp pr) <;> rfl

theorem insertItem_map (φ : (String × Obj) → String × Obj)
    (hfst : ∀ pr, (φ pr).1 = pr.1) (x : String × Obj) :
    ∀ acc : List (String × Obj),
      insertItem (φ x) (acc.map φ) = (insertItem x acc).map φ := by
  intro acc
  induction acc with
  | nil => rfl
  | cons y ys ih =>
      simp only [List.map_cons, insertItem, hfst x, hfst y]
      by_cases hxy : x.1.toLower < y.1.toLower
      · rw [if_pos hxy, if_pos hxy]
        rfl
      · rw [if_neg hxy, if_neg hxy, List.map_cons, ih]

theorem sortItems_map (φ : (String × Obj) → String × Obj)
    (hfst : ∀ pr, (φ pr).1 = pr.1) (items : List (String × Obj)) :
    sortItems (items.map φ) = (sortItems items).map φ := by
  unfold sortItems
  have hgen : ∀ (l acc : List (String × Obj)),
      (l.map φ).foldl (fun acc x => insertItem x acc) (acc.map φ) =
        (l.foldl (fun acc x => insertItem x acc) acc).map φ := by
    intro l
    induction l with
    | nil => intro acc; rfl
    | cons x xs ih =>
        intro acc
        simp only [List.map_cons, List.foldl_cons]
        rw [insertItem_map φ hfst x acc, ih]
  exact hgen items []

theorem group_projects_map (φ : (String × Obj) → String × Obj)
    (hfst : ∀ pr, (φ pr).1 = pr.1)
    (hgrp : ∀ pr, resolvedGroup (φ pr).2 = resolvedGroup pr.2)
    (ps : List (String × Obj)) (gs : List String) :
    group_projects (ps.map φ) gs = (group_projects ps gs).map (mapBuckets φ) := by
  unfold group_projects
  have h1 : bucketsOf (ps.map φ) (gs.map fun g => (g, ([] : List (String × Obj)))) =
      (bucketsOf ps (gs.map fun g => (g, []))).map (mapBuckets φ) := by
    have hinit : (gs.map (fun g => (g, ([] : List (String × Obj))))) =
        mapBuckets φ (gs.map (fun g => (g, ([] : List (String × Obj))))) := by
      unfold mapBuckets
      simp
    conv_lhs => rw [hinit]
    exact bucketsOf_map φ hgrp ps _
  rw [h1]
  cases hb : bucketsOf ps (gs.map fun g => (g, [])) with
  | error e => rfl
  | ok bs =>
      simp only [Except.map, bind, Except.bind]
      unfold mapBuckets
      rw [List.map_map, List.map_map]
      congr 1
      apply List.map_congr_left
      intro b _
      simp [Function.comp, sortItems_map φ hfst]

theorem renderProjects_map (f? : Option Filters) (φ : (String × Obj) → String × Obj)
    (heq : ∀ pr, renderProject f? (φ pr).1 (φ pr).2 = renderProject f? pr.1 pr.2)
    (items : List (String × Obj)) :
    renderProjects f? (items.map φ) = renderProjects f? items := by
  induction items with
  | nil => rfl
  | cons pr rest ih => simp only [List.map_cons, renderProjects, heq pr, ih]

theorem renderGroups_map (f? : Option Filters) (φ : (String × Obj) → String × Obj)
    (heq : ∀ pr, renderProject f? (φ pr).1 (φ pr).2 = renderProject f? pr.1 pr.2)
    (bs : List (String × List (String × Obj))) :
    renderGroups f? (mapBuckets φ bs) = renderGroups f? bs := by
  induction bs with
  | nil => rfl
  | cons b rest ih =>
      show renderGroups f? ((b.1, b.2.map φ) :: mapBuckets φ rest) = _
      simp only [renderGroups]
      by_cases hskip : groupSkip f? b.1 = true
      · rw [if_pos hskip, if_pos hskip, ih]
      · rw [if_neg hskip, if_neg hskip]
        unfold renderGroup
        rw [renderProjects_map f? φ heq, ih]

theorem report_emptyMismatched (d : Doc) (f? : Option Filters) (today t : String)
    (ht : fval f? Filters.tag = some t) :
    generate_markdown_report ⟨d.projects.map (emptyMismatched t), d.groups⟩ f? today =
      generate_markdown_report d f? today := by
  unfold generate_markdown_report
  rw [group_projects_map (emptyMismatched t) (emptyMismatched_fst t)
    (emptyMismatched_group t) d.projects d.groups]
  cases hg : group_projects d.projects d.groups with
  | error e => rfl
  | ok bs =>
      simp only [Except.map, bind, Except.bind]
      rw [renderGroups_map f? (emptyMismatched t)
        (renderProject_emptyMismatched f? t ht) bs]

/-- c7: with an active tag filter, (1) a project whose `tags` list does
not contain the filter tag renders no section and no log lines at all —
even when its logs' dates lie inside an active date range, since all its
logs are dropped before date filtering; (2) a group all of whose projects
render nothing produces no section; and (3) the whole report is unchanged
when every tag-mismatched project's (well-formed) `time_logs` is replaced
by the empty list, i.e. those logs never influence the output. -/
theorem c7_tag_filter_excludes :
    (∀ (f? : Option Filters) (pname : String) (p : Obj) (t : String) (ts xs : List JVal),
      fval f? Filters.tag = some t →
      objGet p "tags" (.jarr []) = .jarr ts →
      ts.any (fun x => jvalEqStr x t) = false →
      iterElems (objGet p "time_logs" (.jarr [])) = some xs →
      renderProject f? pname p = .ok none) ∧
    (∀ (f? : Option Filters) (g : String) (items : List (String × Obj)),
      (∀ pr ∈ items, renderProject f? pr.1 pr.2 = .ok none) →
      renderGroup f? g items = .ok (none, 0)) ∧
    (∀ (d : Doc) (f? : Option Filters) (today t : String),
      fval f? Filters.tag = some t →
      generate_markdown_report ⟨d.projects.map (emptyMismatched t), d.groups⟩ f? today =
        generate_markdown_report d f? today) :=
  ⟨fun f? pname p t ts xs ht htags hmiss hlogs =>
      renderProject_tag_mismatch f? pname p t ts xs ht htags hmiss hlogs,
   fun f? g items h => renderGroup_all_none f? g items h,
   fun d f? today t ht => report_emptyMismatched d f? today t ht⟩

/-- Filter set with tag `x` and an (otherwise matching) date range. -/
def c7f : Option Filters := some ⟨none, none, some "x", some "2024-01-01", none⟩

/-- A project tagged `y` whose single log's date matches the date range. -/
def c7p : Obj := [("tags", .jarr [.jstr "y"]),
  ("time_logs", .jarr [.jobj [("date", .jstr "2024-01-01"), ("duration", .jnum 1)]])]

/-- c7 witness at concrete data. -/
theorem c7_tag_filter_witness :
    renderProject c7f "p" c7p = .ok none ∧
    renderGroup c7f "G" [("p", c7p)] = .ok (none, 0) ∧
    generate_markdown_report ⟨[("p", c7p)].map (emptyMismatched "x"), ["Ungrouped"]⟩ c7f "d" =
      generate_markdown_report ⟨[("p", c7p)], ["Ungrouped"]⟩ c7f "d" := by
  have h1 := c7_tag_filter_excludes.1 c7f "p" c7p "x" [.jstr "y"]
    [.jobj [("date", .jstr "2024-01-01"), ("duration", .jnum 1)]] rfl rfl rfl rfl
  refine ⟨h1, c7_tag_filter_excludes.2.1 c7f "G" [("p", c7p)] ?_,
    c7_tag_filter_excludes.2.2 ⟨[("p", c7p)], ["Ungrouped"]⟩ c7f "d" "x" rfl⟩
  intro pr hpr
  rw [List.mem_singleton.mp hpr]
  exact h1

end WorkTime
